import Mathlib

/-!
# Payment failure interpretation (`routing/result_interpretation.go`)

A shallow embedding of `interpretResult` and the methods it calls, followed by
theorems about the attribution result it builds.

Modelling conventions.

* Go `int` is `Int`.  The only arithmetic on indices is `idx - 1` and `idx + 1`.
  For an origin in `[0, len(rt.Hops)]` every index lies in `[-1, len(rt.Hops)]`,
  where 64-bit arithmetic does not wrap.  For an arbitrary origin `k`, `k - 1`
  wraps in Go only at the least 64-bit integer, and there the wrapped index is
  as much outside `rt.Hops` as the unwrapped one; the single place where the
  two differ in effect is the bound of the range loop of `reportAll` at that
  one origin, which no statement below covers.
* `lnwire.MilliSatoshi` (`uint64`) is `Nat`; the code only copies amounts.
* A runtime panic (index out of range on `rt.Hops`) is `Except.error`.
* Methods on `*interpretedResult` take the receiver value and return the
  updated value.
* Every function that touches `rt.Hops` also threads a ghost `Trace`: the list
  of indices evaluated on `rt.Hops` and of the arguments `failNode` was entered
  with, in program order.  The trace never influences the computed result.
-/

namespace Routing

/-! ## Data model -/

/-- Modelled from the spec: `route.Vertex` (declared in package `route`, a
33-byte public key) is a node identifier compared by value; here a number. -/
abbrev Vertex := Nat

/-- Modelled from the spec: `lnwire.MilliSatoshi`, an unsigned integer. -/
abbrev MilliSatoshi := Nat

/-- Modelled from the spec: `DirectedNodePair` (declared in `nodepair.go`) is
the ordered pair `(From, To)`. -/
structure DirectedNodePair where
  From : Vertex
  To : Vertex
  deriving DecidableEq, Repr

/-- Modelled from the spec: `NewDirectedNodePair(from, to)` (declared in
`nodepair.go`) builds the ordered pair `(from, to)`. -/
def NewDirectedNodePair (nodeFrom nodeTo : Vertex) : DirectedNodePair :=
  { From := nodeFrom, To := nodeTo }

/-- Modelled from the spec: `Reverse()` (declared in `nodepair.go`) yields
`(To, From)`. -/
def DirectedNodePair.Reverse (p : DirectedNodePair) : DirectedNodePair :=
  { From := p.To, To := p.From }

/-- Modelled from the spec: `route.Hop`, restricted to the fields read by the
code (`PubKeyBytes`, `ChannelID`, `AmtToForward`). -/
structure Hop where
  PubKeyBytes : Vertex
  ChannelID : Nat
  AmtToForward : MilliSatoshi
  deriving DecidableEq, Repr

/-- Modelled from the spec: `route.Route`, restricted to the fields read by the
code (`SourcePubKey`, `TotalAmount`, `Hops`). -/
structure Route where
  SourcePubKey : Vertex
  TotalAmount : MilliSatoshi
  Hops : List Hop
  deriving DecidableEq, Repr

/-- Modelled from the spec: `channeldb.FailureReason`, restricted to the two
values the code takes a reference of (`reasonError`,
`reasonIncorrectDetails`). -/
inductive FailureReason
  | Error
  | IncorrectPaymentDetails
  deriving DecidableEq, Repr

/-- Modelled from the spec: the dynamic type of an `lnwire.FailureMessage`.
One constructor per type named in a `case` of the source; `Other` stands for
every remaining message type (and for a nil interface value), all of which
reach the `default` branches. -/
inductive FailureMessage
  | FailInvalidOnionVersion
  | FailInvalidOnionHmac
  | FailInvalidOnionKey
  | FailUnknownNextPeer
  | FailPermanentChannelFailure
  | FailAmountBelowMinimum
  | FailFeeInsufficient
  | FailIncorrectCltvExpiry
  | FailChannelDisabled
  | FailTemporaryChannelFailure
  | FailExpiryTooSoon
  | FailFinalIncorrectCltvExpiry
  | FailFinalIncorrectHtlcAmount
  | FailIncorrectPaymentAmount
  | FailIncorrectDetails
  | FailFinalExpiryTooSoon
  | Other
  deriving DecidableEq, Repr

/-- A Go `map[DirectedNodePair]lnwire.MilliSatoshi` as an association list with
at most one entry per key. -/
abbrev PairMap := List (DirectedNodePair × MilliSatoshi)

/-- Go `m[k] = v`: overwrite the entry of `k` if there is one, else add it. -/
def PairMap.set : PairMap → DirectedNodePair → MilliSatoshi → PairMap
  | [], k, v => [(k, v)]
  | (k0, v0) :: m, k, v =>
    if k0 = k then (k, v) :: m else (k0, v0) :: PairMap.set m k v

/-- Go `v, ok := m[k]`. -/
def PairMap.get? : PairMap → DirectedNodePair → Option MilliSatoshi
  | [], _ => none
  | (k0, v0) :: m, k => if k0 = k then some v0 else PairMap.get? m k

/-- The struct `interpretedResult`; a nil pointer field is `none`. -/
structure interpretedResult where
  nodeFailure : Option Vertex
  pairResults : PairMap
  finalFailureReason : Option FailureReason
  policyFailure : Option DirectedNodePair
  deriving DecidableEq, Repr

/-! ## Panics and the ghost trace -/

/-- The runtime panic the code can raise. -/
inductive Panic
  | indexOutOfRange (idx : Int) (len : Nat)
  deriving DecidableEq, Repr

/-- Ghost events. -/
inductive Event
  | hopsIndex (idx : Int)
  | failNodeCall (idx : Int)
  deriving DecidableEq, Repr

abbrev Trace := List Event

/-- The expression `rt.Hops[idx]`: logs the index, panics outside
`[0, len(rt.Hops) - 1]`. -/
def hopsAt (rt : Route) (idx : Int) (t : Trace) : Except Panic (Hop × Trace) :=
  if 0 ≤ idx then
    match rt.Hops[idx.toNat]? with
    | some h => .ok (h, t ++ [Event.hopsIndex idx])
    | none => .error (Panic.indexOutOfRange idx rt.Hops.length)
  else .error (Panic.indexOutOfRange idx rt.Hops.length)

/-! ## The methods of `result_interpretation.go` -/

/-- The function `getPair`. -/
def getPair (rt : Route) (channelIdx : Int) (t : Trace) :
    Except Panic ((DirectedNodePair × MilliSatoshi) × Trace) := do
  let (hopTo, t) ← hopsAt rt channelIdx t
  let nodeTo := hopTo.PubKeyBytes
  if channelIdx = 0 then
    let nodeFrom := rt.SourcePubKey
    let amt := rt.TotalAmount
    pure ((NewDirectedNodePair nodeFrom nodeTo, amt), t)
  else
    let (hopFrom, t) ← hopsAt rt (channelIdx - 1) t
    let nodeFrom := hopFrom.PubKeyBytes
    let (hopAmt, t) ← hopsAt rt (channelIdx - 1) t
    let amt := hopAmt.AmtToForward
    pure ((NewDirectedNodePair nodeFrom nodeTo, amt), t)

/-- The method `failNode`. -/
def failNode (rt : Route) (idx : Int) (i : interpretedResult) (t : Trace) :
    Except Panic (interpretedResult × Trace) := do
  let (hop, t) ← hopsAt rt (idx - 1) (t ++ [Event.failNodeCall idx])
  pure ({ i with nodeFailure := some hop.PubKeyBytes }, t)

/-- The method `failPair`. -/
def failPair (rt : Route) (idx : Int) (i : interpretedResult) (t : Trace) :
    Except Panic (interpretedResult × Trace) := do
  let ((pair, _), t) ← getPair rt idx t
  let i := { i with pairResults := PairMap.set i.pairResults pair 0 }
  let i := { i with pairResults := PairMap.set i.pairResults pair.Reverse 0 }
  pure (i, t)

/-- The method `failPairBalance`. -/
def failPairBalance (rt : Route) (channelIdx : Int) (i : interpretedResult)
    (t : Trace) : Except Panic (interpretedResult × Trace) := do
  let ((pair, amt), t) ← getPair rt channelIdx t
  pure ({ i with pairResults := PairMap.set i.pairResults pair amt }, t)

/-- The loop of `failPairRange` with `count` iterations left, the next one at
`idx`. -/
def failPairRangeLoop (rt : Route) :
    Nat → Int → interpretedResult → Trace → Except Panic (interpretedResult × Trace)
  | 0, _, i, t => pure (i, t)
  | count + 1, idx, i, t => do
    let (i, t) ← failPair rt idx i t
    failPairRangeLoop rt count (idx + 1) i t

/-- The method `failPairRange`: `for idx := fromIdx; idx <= toIdx; idx++`
runs `toIdx - fromIdx + 1` times when that is positive, and not at all
otherwise. -/
def failPairRange (rt : Route) (fromIdx toIdx : Int) (i : interpretedResult)
    (t : Trace) : Except Panic (interpretedResult × Trace) :=
  failPairRangeLoop rt (toIdx - fromIdx + 1).toNat fromIdx i t

/-- The method `processPaymentOutcomeUnknown`. -/
def processPaymentOutcomeUnknown (rt : Route) (i : interpretedResult)
    (t : Trace) : Except Panic (interpretedResult × Trace) := do
  let n : Int := rt.Hops.length
  if n = 1 then
    let (i, t) ← failNode rt n i t
    pure ({ i with finalFailureReason := some FailureReason.Error }, t)
  else
    failPairRange rt 0 (n - 1) i t

/-- The method `processPaymentOutcomeSelf`.  The `default` branch evaluates
`rt.Hops[0].ChannelID` for the log line. -/
def processPaymentOutcomeSelf (rt : Route) (failure : FailureMessage)
    (i : interpretedResult) (t : Trace) :
    Except Panic (interpretedResult × Trace) :=
  match failure with
  | .FailInvalidOnionVersion | .FailInvalidOnionHmac | .FailInvalidOnionKey => do
    let (i, t) ← failNode rt 1 i t
    if (rt.Hops.length : Int) = 1 then
      pure ({ i with finalFailureReason := some FailureReason.Error }, t)
    else
      pure (i, t)
  | _ => do
    let (_, t) ← hopsAt rt 0 t
    pure (i, t)

/-- The method `processPaymentOutcomeFinal`. -/
def processPaymentOutcomeFinal (route : Route) (failure : FailureMessage)
    (i : interpretedResult) (t : Trace) :
    Except Panic (interpretedResult × Trace) :=
  let n : Int := route.Hops.length
  match failure with
  | .FailFinalIncorrectCltvExpiry | .FailFinalIncorrectHtlcAmount =>
    if n = 1 then do
      let (i, t) ← failNode route n i t
      pure ({ i with finalFailureReason := some FailureReason.Error }, t)
    else
      failPair route (n - 1) i t
  | .FailIncorrectPaymentAmount | .FailIncorrectDetails =>
    pure ({ i with finalFailureReason := some FailureReason.IncorrectPaymentDetails }, t)
  | .FailFinalExpiryTooSoon =>
    pure ({ i with finalFailureReason := some FailureReason.IncorrectPaymentDetails }, t)
  | _ => do
    let (i, t) ← failNode route n i t
    pure ({ i with finalFailureReason := some FailureReason.Error }, t)

/-- The closure `reportOutgoing` of `processPaymentOutcomeIntermediate`. -/
def reportOutgoing (route : Route) (errorSourceIdx : Int) (i : interpretedResult)
    (t : Trace) : Except Panic (interpretedResult × Trace) :=
  failPair route errorSourceIdx i t

/-- The closure `reportOutgoingBalance`. -/
def reportOutgoingBalance (route : Route) (errorSourceIdx : Int)
    (i : interpretedResult) (t : Trace) : Except Panic (interpretedResult × Trace) :=
  failPairBalance route errorSourceIdx i t

/-- The closure `reportIncoming`. -/
def reportIncoming (route : Route) (errorSourceIdx : Int) (i : interpretedResult)
    (t : Trace) : Except Panic (interpretedResult × Trace) :=
  if errorSourceIdx = 1 then
    failNode route errorSourceIdx i t
  else
    failPair route (errorSourceIdx - 1) i t

/-- The closure `reportAll`. -/
def reportAll (route : Route) (errorSourceIdx : Int) (i : interpretedResult)
    (t : Trace) : Except Panic (interpretedResult × Trace) :=
  if errorSourceIdx = 1 then
    failNode route errorSourceIdx i t
  else
    failPairRange route 0 (errorSourceIdx - 1) i t

/-- The method `processPaymentOutcomeIntermediate`. -/
def processPaymentOutcomeIntermediate (route : Route) (errorSourceIdx : Int)
    (failure : FailureMessage) (i : interpretedResult) (t : Trace) :
    Except Panic (interpretedResult × Trace) :=
  match failure with
  | .FailInvalidOnionVersion | .FailInvalidOnionHmac | .FailInvalidOnionKey =>
    reportOutgoing route errorSourceIdx i t
  | .FailUnknownNextPeer =>
    reportOutgoing route errorSourceIdx i t
  | .FailPermanentChannelFailure =>
    reportOutgoing route errorSourceIdx i t
  | .FailAmountBelowMinimum | .FailFeeInsufficient | .FailIncorrectCltvExpiry
  | .FailChannelDisabled => do
    let (hopFrom, t) ← hopsAt route (errorSourceIdx - 1) t
    let (hopTo, t) ← hopsAt route errorSourceIdx t
    let pair : DirectedNodePair :=
      { From := hopFrom.PubKeyBytes, To := hopTo.PubKeyBytes }
    let i := { i with policyFailure := some pair }
    reportIncoming route errorSourceIdx i t
  | .FailTemporaryChannelFailure =>
    reportOutgoingBalance route errorSourceIdx i t
  | .FailExpiryTooSoon =>
    reportAll route errorSourceIdx i t
  | _ =>
    failNode route errorSourceIdx i t

/-- The method `processFail`; a nil `errSourceIdx` is `none`. -/
def processFail (rt : Route) (errSourceIdx : Option Int)
    (failure : FailureMessage) (i : interpretedResult) (t : Trace) :
    Except Panic (interpretedResult × Trace) :=
  match errSourceIdx with
  | none => processPaymentOutcomeUnknown rt i t
  | some idx =>
    if idx = 0 then
      processPaymentOutcomeSelf rt failure i t
    else if idx = (rt.Hops.length : Int) then
      processPaymentOutcomeFinal rt failure i t
    else
      processPaymentOutcomeIntermediate rt idx failure i t

/-- The function `interpretResult` together with the ghost trace of the
call. -/
def interpretResultTrace (rt : Route) (failureSrcIdx : Option Int)
    (failure : FailureMessage) : Except Panic (interpretedResult × Trace) :=
  processFail rt failureSrcIdx failure
    { nodeFailure := none, pairResults := [], finalFailureReason := none,
      policyFailure := none } []

/-- The function `interpretResult`. -/
def interpretResult (rt : Route) (failureSrcIdx : Option Int)
    (failure : FailureMessage) : Except Panic interpretedResult :=
  match interpretResultTrace rt failureSrcIdx failure with
  | .ok (i, _) => .ok i
  | .error e => .error e

/-! ## The routes of `result_interpretation_test.go` -/

/-- The test vertices `hops`; `{1, j}` is written `256 + j`. -/
def hops : List Vertex := [256, 257, 258, 259, 260]

def routeOneHop : Route :=
  { SourcePubKey := 256, TotalAmount := 100,
    Hops := [{ PubKeyBytes := 257, ChannelID := 0, AmtToForward := 99 }] }

def routeTwoHop : Route :=
  { SourcePubKey := 256, TotalAmount := 100,
    Hops := [{ PubKeyBytes := 257, ChannelID := 0, AmtToForward := 99 },
             { PubKeyBytes := 258, ChannelID := 0, AmtToForward := 97 }] }

def routeFourHop : Route :=
  { SourcePubKey := 256, TotalAmount := 100,
    Hops := [{ PubKeyBytes := 257, ChannelID := 0, AmtToForward := 99 },
             { PubKeyBytes := 258, ChannelID := 0, AmtToForward := 97 },
             { PubKeyBytes := 259, ChannelID := 0, AmtToForward := 94 },
             { PubKeyBytes := 260, ChannelID := 0, AmtToForward := 90 }] }

/-- A two-hop route that forwards nothing: the test route `routeTwoHop` with
every amount set to 0. -/
def routeZeroAmount : Route :=
  { SourcePubKey := 256, TotalAmount := 0,
    Hops := [{ PubKeyBytes := 257, ChannelID := 0, AmtToForward := 0 },
             { PubKeyBytes := 258, ChannelID := 0, AmtToForward := 0 }] }

/-! ## Statement vocabulary -/

/-- The directed pair at route position `p` in the words of the spec's
`pairAt`: position 0 is `(route source → hop[0])`, position `p > 0` is
`(hop[p-1] → hop[p])`; undefined past the end of the route. -/
def pairAt (rt : Route) : Nat → Option DirectedNodePair
  | 0 =>
    match rt.Hops[0]? with
    | some b => some { From := rt.SourcePubKey, To := b.PubKeyBytes }
    | none => none
  | p + 1 =>
    match rt.Hops[p]?, rt.Hops[p + 1]? with
    | some a, some b => some { From := a.PubKeyBytes, To := b.PubKeyBytes }
    | _, _ => none

/-- A trace is in range when each logged index on `rt.Hops` lies in
`[0, len(rt.Hops) - 1]` and `failNode` was never entered with `idx = 0`. -/
def TraceInRange (rt : Route) (t : Trace) : Prop :=
  (∀ idx, Event.hopsIndex idx ∈ t → 0 ≤ idx ∧ idx < (rt.Hops.length : Int)) ∧
  Event.failNodeCall 0 ∉ t

/-- A run started with trace `t` is safe when it returns (does not panic) and
the events it adds to `t` are in range. -/
def Safe (rt : Route) (x : Except Panic (interpretedResult × Trace)) (t : Trace) : Prop :=
  ∃ j u, x = .ok (j, t ++ u) ∧ TraceInRange rt u

/-- Whole-pair blame in a map: every key maps to 0 and its reverse is a key
that maps to 0 as well. -/
def SymmetricZero (m : PairMap) : Prop :=
  ∀ q v, PairMap.get? m q = some v → v = 0 ∧ PairMap.get? m q.Reverse = some 0

/-- The three forms a result of `interpretResult` takes: a node blame with an
empty map (terminal `Error` only for the last hop, and only when the origin is
not an intermediate hop); pair blame without a node and without a terminal
reason (symmetric at 0, unless it is the balance blame of an intermediate
`TemporaryChannelFailure`); or the terminal `IncorrectPaymentDetails` of the
final hop with no blame. -/
def Shape (rt : Route) (origin : Option Int) (failure : FailureMessage)
    (r : interpretedResult) : Prop :=
  (∃ (p : Nat) (h1 : 1 ≤ p) (hp : p ≤ rt.Hops.length),
      r.nodeFailure = some (rt.Hops[p - 1]).PubKeyBytes ∧
      r.pairResults = [] ∧
      (r.finalFailureReason = none ∨
        (r.finalFailureReason = some FailureReason.Error ∧ p = rt.Hops.length ∧
          ∀ k, origin = some k → k = 0 ∨ k = (rt.Hops.length : Int)))) ∨
  (r.nodeFailure = none ∧ r.finalFailureReason = none ∧
      (SymmetricZero r.pairResults ∨
        ∃ k : Int, origin = some k ∧ 1 ≤ k ∧ k < (rt.Hops.length : Int) ∧
          failure = FailureMessage.FailTemporaryChannelFailure)) ∨
  (r.nodeFailure = none ∧ r.pairResults = [] ∧
      r.finalFailureReason = some FailureReason.IncorrectPaymentDetails ∧
      origin = some (rt.Hops.length : Int))

/-! ## Lemmas on the map model -/

theorem PairMap.get?_set (m : PairMap) (k q : DirectedNodePair) (v : MilliSatoshi) :
    PairMap.get? (PairMap.set m k v) q = if k = q then some v else PairMap.get? m q := by
  induction m with
  | nil => simp [PairMap.set, PairMap.get?]
  | cons e m ih =>
    obtain ⟨k0, v0⟩ := e
    by_cases h0 : k0 = k
    · subst h0
      by_cases hq : k0 = q <;> simp [PairMap.set, PairMap.get?, hq]
    · by_cases hq : k0 = q
      · subst hq
        have hne : ¬ k = k0 := fun h => h0 h.symm
        simp [PairMap.set, PairMap.get?, h0, hne]
      · simp [PairMap.set, PairMap.get?, h0, hq, ih]

/-! ## Lemmas on the accessors -/

theorem traceInRange_nil (rt : Route) : TraceInRange rt [] := by
  simp [TraceInRange]

theorem traceInRange_hops (rt : Route) (t : Trace) (idx : Int)
    (ht : TraceInRange rt t) (h0 : 0 ≤ idx) (h1 : idx < (rt.Hops.length : Int)) :
    TraceInRange rt (t ++ [Event.hopsIndex idx]) := by
  obtain ⟨ha, hb⟩ := ht
  refine ⟨?_, ?_⟩
  · intro j hj
    rcases List.mem_append.mp hj with hj | hj
    · exact ha j hj
    · simp at hj
      subst hj
      exact ⟨h0, h1⟩
  · intro hj
    rcases List.mem_append.mp hj with hj | hj
    · exact hb hj
    · simp at hj

theorem traceInRange_failNode (rt : Route) (t : Trace) (idx : Int)
    (ht : TraceInRange rt t) (h0 : idx ≠ 0) :
    TraceInRange rt (t ++ [Event.failNodeCall idx]) := by
  obtain ⟨ha, hb⟩ := ht
  refine ⟨?_, ?_⟩
  · intro j hj
    rcases List.mem_append.mp hj with hj | hj
    · exact ha j hj
    · simp at hj
  · intro hj
    rcases List.mem_append.mp hj with hj | hj
    · exact hb hj
    · simp at hj
      exact h0 hj.symm

theorem hopsAt_ok (rt : Route) (idx : Int) (p : Nat) (t : Trace)
    (hidx : idx = (p : Int)) (hp : p < rt.Hops.length) :
    hopsAt rt idx t = .ok (rt.Hops[p], t ++ [Event.hopsIndex idx]) := by
  subst hidx
  simp [hopsAt, List.getElem?_eq_getElem hp]

theorem getPair_zero (rt : Route) (t : Trace) (h : 0 < rt.Hops.length) :
    getPair rt 0 t
      = .ok (({ From := rt.SourcePubKey, To := rt.Hops[0].PubKeyBytes }, rt.TotalAmount),
          t ++ [Event.hopsIndex 0]) := by
  simp [getPair, hopsAt_ok rt 0 0 t rfl h, bind, Except.bind, pure, Except.pure,
    NewDirectedNodePair]

theorem getPair_pos (rt : Route) (idx : Int) (p : Nat) (t : Trace)
    (hidx : idx = (p : Int)) (h1 : 1 ≤ p) (hp : p < rt.Hops.length) :
    getPair rt idx t
      = .ok (({ From := rt.Hops[p - 1].PubKeyBytes, To := rt.Hops[p].PubKeyBytes },
              rt.Hops[p - 1].AmtToForward),
          t ++ [Event.hopsIndex idx, Event.hopsIndex (idx - 1),
                Event.hopsIndex (idx - 1)]) := by
  have hne : ¬ idx = 0 := by omega
  have hq : idx - 1 = ((p - 1 : Nat) : Int) := by omega
  have hp1 : p - 1 < rt.Hops.length := by omega
  simp [getPair, hopsAt_ok rt idx p _ hidx hp, hopsAt_ok rt (idx - 1) (p - 1) _ hq hp1,
    hne, bind, Except.bind, pure, Except.pure, NewDirectedNodePair]

theorem failNode_ok (rt : Route) (idx : Int) (p : Nat) (i : interpretedResult)
    (t : Trace) (hidx : idx = (p : Int)) (h1 : 1 ≤ p) (hp : p ≤ rt.Hops.length) :
    failNode rt idx i t
      = .ok ({ i with nodeFailure := some rt.Hops[p - 1].PubKeyBytes },
          t ++ [Event.failNodeCall idx, Event.hopsIndex (idx - 1)]) := by
  have hq : idx - 1 = ((p - 1 : Nat) : Int) := by omega
  have hp1 : p - 1 < rt.Hops.length := by omega
  simp [failNode, hopsAt_ok rt (idx - 1) (p - 1) _ hq hp1, bind, Except.bind, pure,
    Except.pure]

theorem traceInRange_append (rt : Route) (t u : Trace)
    (ht : TraceInRange rt t) (hu : TraceInRange rt u) : TraceInRange rt (t ++ u) := by
  obtain ⟨ha, hb⟩ := ht
  obtain ⟨hc, hd⟩ := hu
  refine ⟨?_, ?_⟩
  · intro j hj
    rcases List.mem_append.mp hj with hj | hj
    · exact ha j hj
    · exact hc j hj
  · intro hj
    rcases List.mem_append.mp hj with hj | hj
    · exact hb hj
    · exact hd hj

theorem pairAt_zero (rt : Route) (h : 0 < rt.Hops.length) :
    pairAt rt 0 = some { From := rt.SourcePubKey, To := rt.Hops[0].PubKeyBytes } := by
  simp [pairAt, List.getElem?_eq_getElem h]

theorem pairAt_pos (rt : Route) (p : Nat) (h1 : 1 ≤ p) (hp : p < rt.Hops.length) :
    pairAt rt p
      = some { From := rt.Hops[p - 1].PubKeyBytes, To := rt.Hops[p].PubKeyBytes } := by
  obtain ⟨q, rfl⟩ : ∃ q, p = q + 1 := ⟨p - 1, by omega⟩
  have hq : q < rt.Hops.length := by omega
  simp [pairAt, List.getElem?_eq_getElem hp, List.getElem?_eq_getElem hq]

/-- The source's `getPair` returns the pair the spec's `pairAt` describes, at
every position of the route. -/
theorem getPair_eq_pairAt (rt : Route) (idx : Int) (p : Nat) (t : Trace)
    (hidx : idx = (p : Int)) (hp : p < rt.Hops.length) :
    ∃ pr amt u, pairAt rt p = some pr ∧ getPair rt idx t = .ok ((pr, amt), t ++ u) ∧
      TraceInRange rt u := by
  rcases Nat.eq_zero_or_pos p with h0 | h0
  · subst h0
    subst hidx
    refine ⟨_, _, _, pairAt_zero rt hp, getPair_zero rt t hp, ?_⟩
    exact traceInRange_hops rt [] 0 (traceInRange_nil rt) (by omega) (by omega)
  · refine ⟨_, _, _, pairAt_pos rt p h0 hp, getPair_pos rt idx p t hidx h0 hp, ?_⟩
    refine ⟨?_, by simp⟩
    intro j hj
    simp at hj
    omega

theorem failPair_ok (rt : Route) (idx : Int) (p : Nat) (i : interpretedResult)
    (t : Trace) (hidx : idx = (p : Int)) (hp : p < rt.Hops.length) :
    ∃ pr u, pairAt rt p = some pr ∧
      failPair rt idx i t
        = .ok ({ i with pairResults :=
                  PairMap.set (PairMap.set i.pairResults pr 0) pr.Reverse 0 }, t ++ u) ∧
      TraceInRange rt u := by
  obtain ⟨pr, amt, u, h1, h2, h3⟩ := getPair_eq_pairAt rt idx p t hidx hp
  refine ⟨pr, u, h1, ?_, h3⟩
  simp [failPair, h2, bind, Except.bind, pure, Except.pure]

theorem failPairBalance_ok (rt : Route) (idx : Int) (p : Nat)
    (i : interpretedResult) (t : Trace) (hidx : idx = (p : Int)) (h1 : 1 ≤ p)
    (hp : p < rt.Hops.length) :
    ∃ u, failPairBalance rt idx i t
        = .ok (⟨i.nodeFailure,
            PairMap.set i.pairResults
              ⟨rt.Hops[p - 1].PubKeyBytes, rt.Hops[p].PubKeyBytes⟩
              rt.Hops[p - 1].AmtToForward,
            i.finalFailureReason, i.policyFailure⟩, t ++ u) ∧
      TraceInRange rt u := by
  refine ⟨[Event.hopsIndex idx, Event.hopsIndex (idx - 1), Event.hopsIndex (idx - 1)],
    ?_, ?_⟩
  · simp only [failPairBalance, getPair_pos rt idx p t hidx h1 hp, bind, Except.bind, pure,
      Except.pure]
  · refine ⟨?_, by simp⟩
    intro j hj
    simp at hj
    omega

theorem failNode_ok_trace (rt : Route) (idx : Int) (p : Nat) (i : interpretedResult)
    (t : Trace) (hidx : idx = (p : Int)) (h1 : 1 ≤ p) (hp : p ≤ rt.Hops.length) :
    ∃ u, failNode rt idx i t
        = .ok ({ i with nodeFailure := some rt.Hops[p - 1].PubKeyBytes }, t ++ u) ∧
      TraceInRange rt u := by
  refine ⟨_, failNode_ok rt idx p i t hidx h1 hp, ?_⟩
  refine ⟨?_, ?_⟩
  · intro j hj
    simp at hj
    omega
  · simp
    omega

/-- The loop of `failPairRange` started at position `a` with `c` iterations
that stay inside the route: it returns, leaves the three pointer fields alone,
maps every pair of the positions `a, ..., a + c - 1` and its reverse to 0 and
leaves every other key as it was. -/
theorem failPairRangeLoop_ok (rt : Route) (c : Nat) :
    ∀ (a : Nat) (idx : Int) (i : interpretedResult) (t : Trace),
      idx = (a : Int) → a + c ≤ rt.Hops.length →
      ∃ j u, failPairRangeLoop rt c idx i t = .ok (j, t ++ u) ∧ TraceInRange rt u ∧
        j.nodeFailure = i.nodeFailure ∧
        j.finalFailureReason = i.finalFailureReason ∧
        j.policyFailure = i.policyFailure ∧
        (∀ q, (∃ p pr, a ≤ p ∧ p < a + c ∧ pairAt rt p = some pr ∧
                (q = pr ∨ q = pr.Reverse)) →
            PairMap.get? j.pairResults q = some 0) ∧
        (∀ q, ¬ (∃ p pr, a ≤ p ∧ p < a + c ∧ pairAt rt p = some pr ∧
                (q = pr ∨ q = pr.Reverse)) →
            PairMap.get? j.pairResults q = PairMap.get? i.pairResults q) := by
  induction c with
  | zero =>
    intro a idx i t _ _
    refine ⟨i, [], by simp [failPairRangeLoop, pure, Except.pure], traceInRange_nil rt,
      rfl, rfl, rfl, ?_, ?_⟩
    · rintro q ⟨p, pr, h1, h2, _⟩
      omega
    · intro q _
      rfl
  | succ c ih =>
    intro a idx i t hidx hlen
    obtain ⟨pr, u, hpr, hfp, hu⟩ := failPair_ok rt idx a i t hidx (by omega)
    obtain ⟨j, w, hloop, hw, hn, hf, hpol, hin, hout⟩ :=
      ih (a + 1) (idx + 1)
        { i with pairResults := PairMap.set (PairMap.set i.pairResults pr 0) pr.Reverse 0 }
        (t ++ u) (by omega) (by omega)
    refine ⟨j, u ++ w, ?_, traceInRange_append rt u w hu hw, hn, hf, hpol, ?_, ?_⟩
    · simp [failPairRangeLoop, hfp, bind, Except.bind, hloop]
    · rintro q ⟨p, pr0, h1, h2, h3, h4⟩
      by_cases hlater : ∃ p pr, a + 1 ≤ p ∧ p < a + 1 + c ∧ pairAt rt p = some pr ∧
          (q = pr ∨ q = pr.Reverse)
      · exact hin q hlater
      · have hpa : p = a := by
          by_contra hne
          exact hlater ⟨p, pr0, by omega, by omega, h3, h4⟩
        rw [hpa, hpr] at h3
        have h5 : pr0 = pr := (Option.some.inj h3).symm
        rw [h5] at h4
        rw [hout q hlater]
        simp only [PairMap.get?_set]
        rcases h4 with h4 | h4
        · rw [h4]
          by_cases hrev : pr.Reverse = pr <;> simp [hrev]
        · rw [h4]
          simp
    · intro q hq
      have hlater : ¬ ∃ p pr, a + 1 ≤ p ∧ p < a + 1 + c ∧ pairAt rt p = some pr ∧
          (q = pr ∨ q = pr.Reverse) := by
        rintro ⟨p, pr0, h1, h2, h3, h4⟩
        exact hq ⟨p, pr0, by omega, by omega, h3, h4⟩
      rw [hout q hlater]
      simp only [PairMap.get?_set]
      have h1 : ¬ pr = q := fun h => hq ⟨a, pr, le_refl a, by omega, hpr, Or.inl h.symm⟩
      have h2 : ¬ pr.Reverse = q :=
        fun h => hq ⟨a, pr, le_refl a, by omega, hpr, Or.inr h.symm⟩
      simp [h1, h2]

/-- The count-down loop is the source's `for idx := fromIdx; idx <= toIdx; idx++`. -/
theorem failPairRange_unfold (rt : Route) (fromIdx toIdx : Int) (i : interpretedResult)
    (t : Trace) :
    failPairRange rt fromIdx toIdx i t
      = if fromIdx ≤ toIdx then
          (failPair rt fromIdx i t).bind
            (fun x => failPairRange rt (fromIdx + 1) toIdx x.1 x.2)
        else .ok (i, t) := by
  by_cases h : fromIdx ≤ toIdx
  · obtain ⟨c, hc⟩ : ∃ c : Nat, (toIdx - fromIdx + 1).toNat = c + 1 :=
      ⟨(toIdx - fromIdx).toNat, by omega⟩
    have hc2 : (toIdx - (fromIdx + 1) + 1).toNat = c := by omega
    simp only [failPairRange, hc, hc2, failPairRangeLoop, h, if_true, bind]
  · have hc : (toIdx - fromIdx + 1).toNat = 0 := by omega
    simp [failPairRange, hc, failPairRangeLoop, h, pure, Except.pure]

theorem failPairRange_ok (rt : Route) (toIdx : Int) (k : Nat) (i : interpretedResult)
    (t : Trace) (hto : toIdx = (k : Int) - 1) (hk : k ≤ rt.Hops.length) :
    ∃ j u, failPairRange rt 0 toIdx i t = .ok (j, t ++ u) ∧ TraceInRange rt u ∧
      j.nodeFailure = i.nodeFailure ∧
      j.finalFailureReason = i.finalFailureReason ∧
      j.policyFailure = i.policyFailure ∧
      (∀ q, (∃ p pr, p < k ∧ pairAt rt p = some pr ∧ (q = pr ∨ q = pr.Reverse)) →
          PairMap.get? j.pairResults q = some 0) ∧
      (∀ q, ¬ (∃ p pr, p < k ∧ pairAt rt p = some pr ∧ (q = pr ∨ q = pr.Reverse)) →
          PairMap.get? j.pairResults q = PairMap.get? i.pairResults q) := by
  have hc : (toIdx - 0 + 1).toNat = k := by omega
  obtain ⟨j, u, h1, h2, h3, h4, h5, h6, h7⟩ :=
    failPairRangeLoop_ok rt k 0 0 i t rfl (by omega)
  refine ⟨j, u, by simp only [failPairRange, hc, h1], h2, h3, h4, h5, ?_, ?_⟩
  · rintro q ⟨p, pr, hp, hpr, hq⟩
    exact h6 q ⟨p, pr, Nat.zero_le p, by omega, hpr, hq⟩
  · intro q hq
    refine h7 q ?_
    rintro ⟨p, pr, _, hp, hpr, hq2⟩
    exact hq ⟨p, pr, by omega, hpr, hq2⟩

/-! ## Safety of each method on in-range arguments -/

theorem Safe.finalReason (rt : Route) (x : Except Panic (interpretedResult × Trace))
    (t : Trace) (r : FailureReason) (hx : Safe rt x t) :
    Safe rt (x.bind fun y => .ok ({ y.1 with finalFailureReason := some r }, y.2)) t := by
  obtain ⟨j, u, hj, hu⟩ := hx
  exact ⟨_, u, by rw [hj]; rfl, hu⟩

theorem failNode_safe (rt : Route) (idx : Int) (p : Nat) (i : interpretedResult)
    (t : Trace) (hidx : idx = (p : Int)) (h1 : 1 ≤ p) (hp : p ≤ rt.Hops.length) :
    Safe rt (failNode rt idx i t) t := by
  obtain ⟨u, h, hu⟩ := failNode_ok_trace rt idx p i t hidx h1 hp
  exact ⟨_, u, h, hu⟩

theorem failPair_safe (rt : Route) (idx : Int) (p : Nat) (i : interpretedResult)
    (t : Trace) (hidx : idx = (p : Int)) (hp : p < rt.Hops.length) :
    Safe rt (failPair rt idx i t) t := by
  obtain ⟨pr, u, _, h, hu⟩ := failPair_ok rt idx p i t hidx hp
  exact ⟨_, u, h, hu⟩

theorem failPairBalance_safe (rt : Route) (idx : Int) (p : Nat)
    (i : interpretedResult) (t : Trace) (hidx : idx = (p : Int)) (h1 : 1 ≤ p)
    (hp : p < rt.Hops.length) : Safe rt (failPairBalance rt idx i t) t := by
  obtain ⟨u, h, hu⟩ := failPairBalance_ok rt idx p i t hidx h1 hp
  exact ⟨_, u, h, hu⟩

theorem failPairRange_safe (rt : Route) (toIdx : Int) (k : Nat) (i : interpretedResult)
    (t : Trace) (hto : toIdx = (k : Int) - 1) (hk : k ≤ rt.Hops.length) :
    Safe rt (failPairRange rt 0 toIdx i t) t := by
  obtain ⟨j, u, h, hu, _⟩ := failPairRange_ok rt toIdx k i t hto hk
  exact ⟨j, u, h, hu⟩

theorem processPaymentOutcomeUnknown_safe (rt : Route) (i : interpretedResult)
    (t : Trace) (hn : 1 ≤ rt.Hops.length) :
    Safe rt (processPaymentOutcomeUnknown rt i t) t := by
  by_cases h1 : (rt.Hops.length : Int) = 1
  · have h := Safe.finalReason rt _ t FailureReason.Error
      (failNode_safe rt (rt.Hops.length : Int) rt.Hops.length i t rfl hn (le_refl _))
    simpa [processPaymentOutcomeUnknown, h1, bind, pure, Except.pure] using h
  · have h := failPairRange_safe rt ((rt.Hops.length : Int) - 1) rt.Hops.length i t rfl
      (le_refl _)
    simpa [processPaymentOutcomeUnknown, h1] using h

theorem processPaymentOutcomeSelf_safe (rt : Route) (failure : FailureMessage)
    (i : interpretedResult) (t : Trace) (hn : 1 ≤ rt.Hops.length) :
    Safe rt (processPaymentOutcomeSelf rt failure i t) t := by
  have hnode : Safe rt
      ((failNode rt 1 i t).bind fun y =>
        if (rt.Hops.length : Int) = 1 then
          .ok ({ y.1 with finalFailureReason := some FailureReason.Error }, y.2)
        else .ok (y.1, y.2)) t := by
    obtain ⟨u, h, hu⟩ := failNode_ok_trace rt 1 1 i t rfl (le_refl 1) hn
    by_cases h1 : (rt.Hops.length : Int) = 1
    · exact ⟨_, u, by rw [h]; dsimp only [Except.bind]; rw [if_pos h1], hu⟩
    · exact ⟨_, u, by rw [h]; dsimp only [Except.bind]; rw [if_neg h1], hu⟩
  have hlog : Safe rt ((hopsAt rt 0 t).bind fun y => .ok (i, y.2)) t := by
    refine ⟨i, [Event.hopsIndex 0], ?_, ?_⟩
    · rw [hopsAt_ok rt 0 0 t rfl (by omega)]
      rfl
    · exact traceInRange_hops rt [] 0 (traceInRange_nil rt) (by omega) (by omega)
  cases failure <;> first
    | exact hnode
    | exact hlog

theorem processPaymentOutcomeFinal_safe (rt : Route) (failure : FailureMessage)
    (i : interpretedResult) (t : Trace) (hn : 1 ≤ rt.Hops.length) :
    Safe rt (processPaymentOutcomeFinal rt failure i t) t := by
  have hnode : Safe rt
      ((failNode rt (rt.Hops.length : Int) i t).bind fun y =>
        .ok ({ y.1 with finalFailureReason := some FailureReason.Error }, y.2)) t :=
    Safe.finalReason rt _ t FailureReason.Error
      (failNode_safe rt (rt.Hops.length : Int) rt.Hops.length i t rfl hn (le_refl _))
  have hlast : Safe rt
      (if (rt.Hops.length : Int) = 1 then
        (failNode rt (rt.Hops.length : Int) i t).bind fun y =>
          .ok ({ y.1 with finalFailureReason := some FailureReason.Error }, y.2)
      else failPair rt ((rt.Hops.length : Int) - 1) i t) t := by
    by_cases h1 : (rt.Hops.length : Int) = 1
    · simpa [h1] using hnode
    · simpa [h1] using
        failPair_safe rt ((rt.Hops.length : Int) - 1) (rt.Hops.length - 1) i t (by omega)
          (by omega)
  have hdetails : Safe rt
      (.ok ({ i with finalFailureReason := some FailureReason.IncorrectPaymentDetails }, t))
      t :=
    ⟨_, [], by rw [List.append_nil], traceInRange_nil rt⟩
  cases failure <;> first
    | exact hnode
    | exact hlast
    | exact hdetails

theorem processPaymentOutcomeIntermediate_safe (rt : Route) (idx : Int) (k : Nat)
    (failure : FailureMessage) (i : interpretedResult) (t : Trace)
    (hidx : idx = (k : Int)) (h1 : 1 ≤ k) (hk : k < rt.Hops.length) :
    Safe rt (processPaymentOutcomeIntermediate rt idx failure i t) t := by
  have hout : Safe rt (reportOutgoing rt idx i t) t :=
    failPair_safe rt idx k i t hidx hk
  have hbal : Safe rt (reportOutgoingBalance rt idx i t) t :=
    failPairBalance_safe rt idx k i t hidx h1 hk
  have hnode : Safe rt (failNode rt idx i t) t :=
    failNode_safe rt idx k i t hidx h1 (by omega)
  have hinc : ∀ (j : interpretedResult) (w : Trace), Safe rt (reportIncoming rt idx j w) w := by
    intro j w
    by_cases hone : idx = 1
    · simpa [reportIncoming, hone] using failNode_safe rt 1 1 j w rfl (le_refl 1) (by omega)
    · simpa [reportIncoming, hone] using
        failPair_safe rt (idx - 1) (k - 1) j w (by omega) (by omega)
  have hall : Safe rt (reportAll rt idx i t) t := by
    by_cases hone : idx = 1
    · simpa [reportAll, hone] using failNode_safe rt 1 1 i t rfl (le_refl 1) (by omega)
    · simpa [reportAll, hone] using
        failPairRange_safe rt (idx - 1) k i t (by omega) (by omega)
  have hpol : Safe rt
      ((hopsAt rt (idx - 1) t).bind fun a =>
        (hopsAt rt idx a.2).bind fun b =>
          reportIncoming rt idx
            { i with policyFailure := some ⟨a.1.PubKeyBytes, b.1.PubKeyBytes⟩ } b.2) t := by
    rw [hopsAt_ok rt (idx - 1) (k - 1) t (by omega) (by omega)]
    simp only [Except.bind]
    rw [hopsAt_ok rt idx k _ hidx hk]
    simp only [Except.bind]
    obtain ⟨j, u, hj, hu⟩ := hinc
      { i with policyFailure := some ⟨rt.Hops[k - 1].PubKeyBytes, rt.Hops[k].PubKeyBytes⟩ }
      (t ++ [Event.hopsIndex (idx - 1)] ++ [Event.hopsIndex idx])
    refine ⟨j, [Event.hopsIndex (idx - 1)] ++ [Event.hopsIndex idx] ++ u, ?_, ?_⟩
    · rw [hj]
      simp
    · refine traceInRange_append rt _ u ?_ hu
      refine ⟨?_, by simp⟩
      intro m hm
      simp at hm
      omega
  cases failure <;> first
    | exact hout
    | exact hbal
    | exact hnode
    | exact hall
    | exact hpol

theorem processFail_safe (rt : Route) (origin : Option Int) (failure : FailureMessage)
    (i : interpretedResult) (t : Trace) (hn : 1 ≤ rt.Hops.length)
    (horigin : ∀ k, origin = some k → 0 ≤ k ∧ k ≤ (rt.Hops.length : Int)) :
    Safe rt (processFail rt origin failure i t) t := by
  cases origin with
  | none => exact processPaymentOutcomeUnknown_safe rt i t hn
  | some k =>
    obtain ⟨h0, hle⟩ := horigin k rfl
    simp only [processFail]
    by_cases hz : k = 0
    · rw [if_pos hz]
      exact processPaymentOutcomeSelf_safe rt failure i t hn
    · rw [if_neg hz]
      by_cases hfin : k = (rt.Hops.length : Int)
      · rw [if_pos hfin]
        exact processPaymentOutcomeFinal_safe rt failure i t hn
      · rw [if_neg hfin]
        exact processPaymentOutcomeIntermediate_safe rt k k.toNat failure i t (by omega)
          (by omega) (by omega)

/-! ## Dispatch and exact results -/

theorem interpretResult_of_trace (rt : Route) (origin : Option Int)
    (failure : FailureMessage) (r : interpretedResult) (t : Trace)
    (h : processFail rt origin failure ⟨none, [], none, none⟩ [] = .ok (r, t)) :
    interpretResult rt origin failure = .ok r := by
  simp only [interpretResult, interpretResultTrace, h]

theorem processFail_intermediate (rt : Route) (k : Nat) (failure : FailureMessage)
    (i : interpretedResult) (t : Trace) (h1 : 1 ≤ k) (hk : k < rt.Hops.length) :
    processFail rt (some (k : Int)) failure i t
      = processPaymentOutcomeIntermediate rt (k : Int) failure i t := by
  have hz : ¬ (k : Int) = 0 := by omega
  have hfin : ¬ (k : Int) = (rt.Hops.length : Int) := by omega
  simp only [processFail, if_neg hz, if_neg hfin]

theorem processFail_final (rt : Route) (failure : FailureMessage)
    (i : interpretedResult) (t : Trace) (hn : 1 ≤ rt.Hops.length) :
    processFail rt (some (rt.Hops.length : Int)) failure i t
      = processPaymentOutcomeFinal rt failure i t := by
  have hz : ¬ (rt.Hops.length : Int) = 0 := by omega
  simp only [processFail, if_neg hz, if_true]

theorem failPair_pos (rt : Route) (idx : Int) (p : Nat) (i : interpretedResult)
    (t : Trace) (hidx : idx = (p : Int)) (h1 : 1 ≤ p) (hp : p < rt.Hops.length) :
    failPair rt idx i t
      = .ok (⟨i.nodeFailure,
          PairMap.set
            (PairMap.set i.pairResults ⟨rt.Hops[p - 1].PubKeyBytes, rt.Hops[p].PubKeyBytes⟩ 0)
            ⟨rt.Hops[p].PubKeyBytes, rt.Hops[p - 1].PubKeyBytes⟩ 0,
          i.finalFailureReason, i.policyFailure⟩,
          t ++ [Event.hopsIndex idx, Event.hopsIndex (idx - 1),
                Event.hopsIndex (idx - 1)]) := by
  simp only [failPair, getPair_pos rt idx p t hidx h1 hp, bind, Except.bind, pure,
    Except.pure, DirectedNodePair.Reverse]

/-- The map left by one `failPair` on an empty map: the pair and its reverse,
both at 0, and nothing else. -/
theorem PairMap.get?_pairBoth (pr q : DirectedNodePair) :
    PairMap.get? (PairMap.set (PairMap.set [] pr 0) pr.Reverse 0) q
      = if q = pr ∨ q = pr.Reverse then some 0 else none := by
  simp only [PairMap.get?_set, PairMap.get?]
  by_cases h1 : pr = q
  · subst h1
    by_cases h2 : pr.Reverse = pr <;> simp [h2]
  · by_cases h2 : pr.Reverse = q
    · subst h2
      simp
    · have h3 : ¬ q = pr := fun h => h1 h.symm
      have h4 : ¬ q = pr.Reverse := fun h => h2 h.symm
      simp [h1, h2, h3, h4]

/-- Intermediate origin, policy-mismatch family: the whole run. -/
theorem intermediate_policy (rt : Route) (k : Nat) (failure : FailureMessage)
    (i : interpretedResult) (t : Trace) (h1 : 1 ≤ k) (hk : k < rt.Hops.length)
    (hf : failure = .FailAmountBelowMinimum ∨ failure = .FailFeeInsufficient ∨
      failure = .FailIncorrectCltvExpiry ∨ failure = .FailChannelDisabled) :
    processPaymentOutcomeIntermediate rt (k : Int) failure i t
      = reportIncoming rt (k : Int)
          ⟨i.nodeFailure, i.pairResults, i.finalFailureReason,
            some ⟨rt.Hops[k - 1].PubKeyBytes, rt.Hops[k].PubKeyBytes⟩⟩
          (t ++ [Event.hopsIndex ((k : Int) - 1)] ++ [Event.hopsIndex (k : Int)]) := by
  have ha := hopsAt_ok rt ((k : Int) - 1) (k - 1) t (by omega) (by omega)
  have hb := hopsAt_ok rt (k : Int) k (t ++ [Event.hopsIndex ((k : Int) - 1)]) rfl hk
  rcases hf with hf | hf | hf | hf <;> subst hf <;>
    simp only [processPaymentOutcomeIntermediate, ha, hb, bind, Except.bind]

/-- Intermediate origin, outgoing-pair variants: the whole run. -/
theorem intermediate_outgoing (rt : Route) (k : Nat) (failure : FailureMessage)
    (i : interpretedResult) (t : Trace)
    (hf : failure = .FailInvalidOnionVersion ∨ failure = .FailInvalidOnionHmac ∨
      failure = .FailInvalidOnionKey ∨ failure = .FailUnknownNextPeer ∨
      failure = .FailPermanentChannelFailure) :
    processPaymentOutcomeIntermediate rt (k : Int) failure i t
      = failPair rt (k : Int) i t := by
  rcases hf with hf | hf | hf | hf | hf <;> subst hf <;>
    simp only [processPaymentOutcomeIntermediate, reportOutgoing]

/-- Intermediate origin, `TemporaryChannelFailure`: the whole run. -/
theorem intermediate_balance (rt : Route) (k : Nat) (i : interpretedResult) (t : Trace)
    (h1 : 1 ≤ k) (hk : k < rt.Hops.length) :
    processPaymentOutcomeIntermediate rt (k : Int) .FailTemporaryChannelFailure i t
      = .ok (⟨i.nodeFailure,
          PairMap.set i.pairResults
            ⟨rt.Hops[k - 1].PubKeyBytes, rt.Hops[k].PubKeyBytes⟩
            rt.Hops[k - 1].AmtToForward,
          i.finalFailureReason, i.policyFailure⟩,
          t ++ [Event.hopsIndex (k : Int), Event.hopsIndex ((k : Int) - 1),
                Event.hopsIndex ((k : Int) - 1)]) := by
  simp only [processPaymentOutcomeIntermediate, reportOutgoingBalance, failPairBalance,
    getPair_pos rt (k : Int) k t rfl h1 hk, bind, Except.bind, pure, Except.pure]

/-- A range blame over positions `0, ..., k - 1` started on the empty result:
the key set is the pairs of those positions and their reverses, every value is
0, the pointer fields stay unset. -/
theorem failPairRange_empty (rt : Route) (toIdx : Int) (k : Nat)
    (hto : toIdx = (k : Int) - 1) (hk : k ≤ rt.Hops.length) :
    ∃ r t, failPairRange rt 0 toIdx ⟨none, [], none, none⟩ [] = .ok (r, t) ∧
      (∀ q, (PairMap.get? r.pairResults q).isSome ↔
        ∃ p pr, p < k ∧ pairAt rt p = some pr ∧ (q = pr ∨ q = pr.Reverse)) ∧
      (∀ q v, PairMap.get? r.pairResults q = some v → v = 0) ∧
      r.nodeFailure = none ∧ r.finalFailureReason = none ∧ r.policyFailure = none := by
  obtain ⟨j, u, hrun, _, hn, hf, hpol, hin, hout⟩ :=
    failPairRange_ok rt toIdx k ⟨none, [], none, none⟩ [] hto hk
  refine ⟨j, [] ++ u, hrun, ?_, ?_, hn, hf, hpol⟩
  · intro q
    constructor
    · intro hsome
      by_contra hno
      rw [hout q hno] at hsome
      simp [PairMap.get?] at hsome
    · intro hyes
      rw [hin q hyes]
      rfl
  · intro q v hv
    by_cases hyes : ∃ p pr, p < k ∧ pairAt rt p = some pr ∧ (q = pr ∨ q = pr.Reverse)
    · rw [hin q hyes] at hv
      exact (Option.some.inj hv).symm
    · rw [hout q hyes] at hv
      simp [PairMap.get?] at hv

/-! ## The cases of `TestResultInterpretation` -/

/-- Test case "fail". -/
theorem test_fail :
    interpretResult routeTwoHop (some 1) .FailTemporaryChannelFailure
      = .ok ⟨none, [(⟨257, 258⟩, 99)], none, none⟩ := rfl

/-- Test case "fail expiry too soon"; the expected map has these six keys. -/
theorem test_fail_expiry_too_soon :
    interpretResult routeFourHop (some 3) .FailExpiryTooSoon
      = .ok ⟨none, [(⟨256, 257⟩, 0), (⟨257, 256⟩, 0), (⟨257, 258⟩, 0),
          (⟨258, 257⟩, 0), (⟨258, 259⟩, 0), (⟨259, 258⟩, 0)], none, none⟩ := rfl

/-- Test case "fail malformed htlc from direct peer". -/
theorem test_fail_malformed_direct_peer :
    interpretResult routeTwoHop (some 0) .FailInvalidOnionKey
      = .ok ⟨some 257, [], none, none⟩ := rfl

/-- Test case "fail malformed htlc from direct final peer". -/
theorem test_fail_malformed_direct_final_peer :
    interpretResult routeOneHop (some 0) .FailInvalidOnionKey
      = .ok ⟨some 257, [], some .Error, none⟩ := rfl

/-! ## Claims -/

/-- C1. For every route with at least one hop, every origin that is nil or an
index in `[0, n]`, and every failure variant, `interpretResult` returns a
result; every index it evaluates on `rt.Hops` lies in `[0, n-1]`, and
`failNode` is never entered with `idx = 0`. -/
theorem C1_interpretResult_in_range (rt : Route) (origin : Option Int)
    (failure : FailureMessage) (hn : 1 ≤ rt.Hops.length)
    (horigin : ∀ k, origin = some k → 0 ≤ k ∧ k ≤ (rt.Hops.length : Int)) :
    ∃ r t, interpretResult rt origin failure = .ok r ∧
      interpretResultTrace rt origin failure = .ok (r, t) ∧
      (∀ idx, Event.hopsIndex idx ∈ t → 0 ≤ idx ∧ idx < (rt.Hops.length : Int)) ∧
      Event.failNodeCall 0 ∉ t := by
  obtain ⟨r, u, hr, hu⟩ := processFail_safe rt origin failure
    { nodeFailure := none, pairResults := [], finalFailureReason := none,
      policyFailure := none } [] hn horigin
  have htrace : interpretResultTrace rt origin failure = .ok (r, u) := by
    simpa [interpretResultTrace] using hr
  exact ⟨r, u, by simp [interpretResult, htrace], htrace, hu.1, hu.2⟩

/-- C1 on the four-hop test route, origin 3, `ExpiryTooSoon`. -/
theorem C1_interpretResult_in_range_witness :
    ∃ r t, interpretResult routeFourHop (some 3) .FailExpiryTooSoon = .ok r ∧
      interpretResultTrace routeFourHop (some 3) .FailExpiryTooSoon = .ok (r, t) ∧
      (∀ idx, Event.hopsIndex idx ∈ t → 0 ≤ idx ∧ idx < (routeFourHop.Hops.length : Int)) ∧
      Event.failNodeCall 0 ∉ t :=
  C1_interpretResult_in_range routeFourHop (some 3) .FailExpiryTooSoon (by decide)
    (by
      intro k hk
      cases hk
      decide)

/-- C2 as stated fails: on the two-hop test route with origin 1 and
`FeeInsufficient` the code records the pair (hop 1 → hop 2), the reporting
node's outgoing pair, and not the incoming pair (source → hop 1). -/
theorem C2_policyFailure_incoming_counterexample :
    interpretResult routeTwoHop (some 1) .FailFeeInsufficient
        = .ok ⟨some 257, [], none, some ⟨257, 258⟩⟩ ∧
      (some ⟨257, 258⟩ : Option DirectedNodePair)
        ≠ some ⟨routeTwoHop.SourcePubKey, 257⟩ := by
  refine ⟨rfl, ?_⟩
  decide

/-- C2, amended. For every route, every `k` with `1 ≤ k < n` and every failure
of the policy-mismatch family, `interpretResult` with origin `k` returns a
result whose `policyFailure` is the pair with `From = rt.Hops[k-1].PubKeyBytes`
(the reporting node) and `To = rt.Hops[k].PubKeyBytes` (its successor). -/
theorem C2_policyFailure_outgoing (rt : Route) (k : Nat) (failure : FailureMessage)
    (h1 : 1 ≤ k) (hk : k < rt.Hops.length)
    (hf : failure = .FailAmountBelowMinimum ∨ failure = .FailFeeInsufficient ∨
      failure = .FailIncorrectCltvExpiry ∨ failure = .FailChannelDisabled) :
    ∃ r, interpretResult rt (some (k : Int)) failure = .ok r ∧
      r.policyFailure = some ⟨rt.Hops[k - 1].PubKeyBytes, rt.Hops[k].PubKeyBytes⟩ := by
  have hrun := intermediate_policy rt k failure ⟨none, [], none, none⟩ [] h1 hk hf
  rw [← processFail_intermediate rt k failure _ _ h1 hk] at hrun
  by_cases hone : (k : Int) = 1
  · have hk1 : k = 1 := by omega
    subst hk1
    rw [reportIncoming, if_pos hone, failNode_ok rt _ 1 _ _ rfl (le_refl 1) (by omega)]
      at hrun
    exact ⟨_, interpretResult_of_trace rt _ failure _ _ hrun, rfl⟩
  · rw [reportIncoming, if_neg hone,
      failPair_pos rt _ (k - 1) _ _ (by omega) (by omega) (by omega)] at hrun
    exact ⟨_, interpretResult_of_trace rt _ failure _ _ hrun, rfl⟩

/-- C2, amended, on the four-hop test route with origin 2 and
`ChannelDisabled`. -/
theorem C2_policyFailure_outgoing_witness :
    ∃ r, interpretResult routeFourHop (some ((2 : Nat) : Int)) .FailChannelDisabled = .ok r ∧
      r.policyFailure = some ⟨258, 259⟩ :=
  C2_policyFailure_outgoing routeFourHop 2 .FailChannelDisabled (by decide) (by decide)
    (by decide)

/-- C3. For every route and every `k` with `1 ≤ k < n` (so `n ≥ 2`),
`interpretResult` with origin `k` and `TemporaryChannelFailure` returns the
result whose `pairResults` is the single entry
`(rt.Hops[k-1] → rt.Hops[k]) ↦ rt.Hops[k-1].AmtToForward` and whose
`nodeFailure`, `finalFailureReason` and `policyFailure` are unset; when the two
vertices differ the reverse pair is not a key. -/
theorem C3_temporaryChannelFailure_single_entry (rt : Route) (k : Nat)
    (h1 : 1 ≤ k) (hk : k < rt.Hops.length) :
    ∃ r, interpretResult rt (some (k : Int)) .FailTemporaryChannelFailure = .ok r ∧
      r.pairResults
        = [(⟨rt.Hops[k - 1].PubKeyBytes, rt.Hops[k].PubKeyBytes⟩,
            rt.Hops[k - 1].AmtToForward)] ∧
      r.nodeFailure = none ∧ r.finalFailureReason = none ∧ r.policyFailure = none ∧
      (rt.Hops[k - 1].PubKeyBytes ≠ rt.Hops[k].PubKeyBytes →
        PairMap.get? r.pairResults ⟨rt.Hops[k].PubKeyBytes, rt.Hops[k - 1].PubKeyBytes⟩
          = none) := by
  have hrun : processFail rt (some (k : Int)) .FailTemporaryChannelFailure
      ⟨none, [], none, none⟩ [] = _ :=
    (processFail_intermediate rt k _ _ _ h1 hk).trans
      (intermediate_balance rt k _ _ h1 hk)
  refine ⟨_, interpretResult_of_trace rt _ _ _ _ hrun, rfl, rfl, rfl, rfl, ?_⟩
  intro hne
  have hne2 : ¬ (rt.Hops[k - 1].PubKeyBytes = rt.Hops[k].PubKeyBytes ∧
      rt.Hops[k].PubKeyBytes = rt.Hops[k - 1].PubKeyBytes) := fun h => hne h.1
  simp [PairMap.set, PairMap.get?, hne2]

/-- C3 on the two-hop test route with origin 1 (the test case "fail"). -/
theorem C3_temporaryChannelFailure_single_entry_witness :
    ∃ r, interpretResult routeTwoHop (some ((1 : Nat) : Int)) .FailTemporaryChannelFailure
        = .ok r ∧
      r.pairResults = [(⟨257, 258⟩, 99)] ∧
      r.nodeFailure = none ∧ r.finalFailureReason = none ∧ r.policyFailure = none ∧
      ((257 : Vertex) ≠ 258 → PairMap.get? r.pairResults ⟨258, 257⟩ = none) :=
  C3_temporaryChannelFailure_single_entry routeTwoHop 1 (by decide) (by decide)

/-- C4. For every route and every `k` with `2 ≤ k < n` (so `n ≥ 3`),
`interpretResult` with origin `k` and `ExpiryTooSoon` returns a result whose
`pairResults` key set is exactly the pairs at positions `0, ..., k-1` and their
reverses, where position 0 is `rt.SourcePubKey → rt.Hops[0]` and position
`p > 0` is `rt.Hops[p-1] → rt.Hops[p]`; every value is 0; `nodeFailure`,
`finalFailureReason` and `policyFailure` are unset. -/
theorem C4_expiryTooSoon_blames_all_pairs_up_to_source (rt : Route) (k : Nat)
    (h2 : 2 ≤ k) (hk : k < rt.Hops.length) :
    ∃ r, interpretResult rt (some (k : Int)) .FailExpiryTooSoon = .ok r ∧
      (∀ q, (PairMap.get? r.pairResults q).isSome ↔
        ∃ p pr, p < k ∧ pairAt rt p = some pr ∧ (q = pr ∨ q = pr.Reverse)) ∧
      (∀ q v, PairMap.get? r.pairResults q = some v → v = 0) ∧
      r.nodeFailure = none ∧ r.finalFailureReason = none ∧ r.policyFailure = none ∧
      pairAt rt 0 = some ⟨rt.SourcePubKey, rt.Hops[0].PubKeyBytes⟩ ∧
      (∀ (p : Nat) (hp1 : 1 ≤ p) (hpk : p < k),
        pairAt rt p = some ⟨rt.Hops[p - 1].PubKeyBytes, rt.Hops[p].PubKeyBytes⟩) := by
  obtain ⟨r, t, hrun, hkeys, hvals, hn, hf, hpol⟩ :=
    failPairRange_empty rt ((k : Int) - 1) k rfl (by omega)
  have hone : ¬ (k : Int) = 1 := by omega
  have hproc : processFail rt (some (k : Int)) .FailExpiryTooSoon
      ⟨none, [], none, none⟩ [] = .ok (r, t) := by
    rw [processFail_intermediate rt k _ _ _ (by omega) hk]
    simp only [processPaymentOutcomeIntermediate, reportAll, if_neg hone]
    exact hrun
  refine ⟨r, interpretResult_of_trace rt _ _ _ _ hproc, hkeys, hvals, hn, hf, hpol,
    pairAt_zero rt (by omega), ?_⟩
  intro p hp1 hpk
  exact pairAt_pos rt p hp1 (by omega)

/-- C4 on the four-hop test route with origin 3 (the test case "fail expiry
too soon"). -/
theorem C4_expiryTooSoon_blames_all_pairs_up_to_source_witness :
    ∃ r, interpretResult routeFourHop (some ((3 : Nat) : Int)) .FailExpiryTooSoon = .ok r ∧
      (∀ q, (PairMap.get? r.pairResults q).isSome ↔
        ∃ p pr, p < 3 ∧ pairAt routeFourHop p = some pr ∧ (q = pr ∨ q = pr.Reverse)) ∧
      (∀ q v, PairMap.get? r.pairResults q = some v → v = 0) ∧
      r.nodeFailure = none ∧ r.finalFailureReason = none ∧ r.policyFailure = none ∧
      pairAt routeFourHop 0 = some ⟨256, 257⟩ ∧
      (∀ (p : Nat) (hp1 : 1 ≤ p) (hpk : p < 3),
        pairAt routeFourHop p
          = some ⟨(routeFourHop.Hops.get ⟨p - 1, by
                      have : routeFourHop.Hops.length = 4 := rfl
                      omega⟩).PubKeyBytes,
                  (routeFourHop.Hops.get ⟨p, by
                      have : routeFourHop.Hops.length = 4 := rfl
                      omega⟩).PubKeyBytes⟩) :=
  C4_expiryTooSoon_blames_all_pairs_up_to_source routeFourHop 3 (by decide) (by decide)

/-- C5 as stated fails: on the two-hop test route with origin 1 and
`ExpiryTooSoon` the code blames hop 1 as a node and leaves `pairResults`
empty; the pair (source → hop 1) is not a key. -/
theorem C5_expiryTooSoon_first_hop_counterexample :
    interpretResult routeTwoHop (some 1) .FailExpiryTooSoon
        = .ok ⟨some 257, [], none, none⟩ ∧
      PairMap.get? ([] : PairMap) ⟨routeTwoHop.SourcePubKey, 257⟩ ≠ some 0 := by
  refine ⟨rfl, ?_⟩
  decide

/-- C5, amended. For every route with `n ≥ 2` hops, `interpretResult` with
origin 1 and `ExpiryTooSoon` blames the first hop as a node:
`nodeFailure = rt.Hops[0].PubKeyBytes`, `pairResults` is empty, and
`finalFailureReason` and `policyFailure` are unset. -/
theorem C5_expiryTooSoon_first_hop_blames_node (rt : Route)
    (hn : 2 ≤ rt.Hops.length) :
    interpretResult rt (some 1) .FailExpiryTooSoon
      = .ok ⟨some rt.Hops[0].PubKeyBytes, [], none, none⟩ := by
  have hproc : processFail rt (some ((1 : Nat) : Int)) .FailExpiryTooSoon
      ⟨none, [], none, none⟩ []
        = .ok (⟨some rt.Hops[0].PubKeyBytes, [], none, none⟩,
            [] ++ [Event.failNodeCall 1, Event.hopsIndex (1 - 1)]) := by
    rw [processFail_intermediate rt 1 _ _ _ (le_refl 1) (by omega)]
    simp only [processPaymentOutcomeIntermediate, reportAll, Nat.cast_one, if_true]
    exact failNode_ok rt 1 1 _ _ rfl (le_refl 1) (by omega)
  exact interpretResult_of_trace rt _ _ _ _ hproc

/-- C5, amended, on the two-hop test route. -/
theorem C5_expiryTooSoon_first_hop_blames_node_witness :
    interpretResult routeTwoHop (some 1) .FailExpiryTooSoon
      = .ok ⟨some 257, [], none, none⟩ :=
  C5_expiryTooSoon_first_hop_blames_node routeTwoHop (by decide)

/-- C6. For every route with `n ≥ 1` hops and every malformed-onion failure,
`interpretResult` with origin 0 returns `nodeFailure = rt.Hops[0].PubKeyBytes`,
empty `pairResults`, `policyFailure` unset, and `finalFailureReason = Error`
when `n = 1`, unset when `n ≥ 2`. -/
theorem C6_self_malformed_onion_blames_peer (rt : Route) (failure : FailureMessage)
    (hn : 1 ≤ rt.Hops.length)
    (hf : failure = .FailInvalidOnionVersion ∨ failure = .FailInvalidOnionHmac ∨
      failure = .FailInvalidOnionKey) :
    interpretResult rt (some 0) failure
      = .ok ⟨some rt.Hops[0].PubKeyBytes, [],
          if rt.Hops.length = 1 then some FailureReason.Error else none, none⟩ := by
  have hnode := failNode_ok rt 1 1 ⟨none, [], none, none⟩ [] rfl (le_refl 1) hn
  have hproc : processFail rt (some 0) failure ⟨none, [], none, none⟩ []
      = .ok (⟨some rt.Hops[0].PubKeyBytes, [],
          if rt.Hops.length = 1 then some FailureReason.Error else none, none⟩,
          [] ++ [Event.failNodeCall 1, Event.hopsIndex (1 - 1)]) := by
    by_cases h1 : rt.Hops.length = 1
    · have h1i : (rt.Hops.length : Int) = 1 := by omega
      rcases hf with hf | hf | hf <;> subst hf <;>
        simp only [processFail, processPaymentOutcomeSelf, hnode, bind, Except.bind, pure,
          Except.pure, if_true, h1, h1i] <;> rfl
    · have h1i : ¬ (rt.Hops.length : Int) = 1 := by omega
      rcases hf with hf | hf | hf <;> subst hf <;>
        simp only [processFail, processPaymentOutcomeSelf, hnode, bind, Except.bind, pure,
          Except.pure, if_true, if_neg h1, if_neg h1i]
  exact interpretResult_of_trace rt _ _ _ _ hproc

/-- C6 on the one-hop test route (the test case "fail malformed htlc from
direct final peer"). -/
theorem C6_self_malformed_onion_blames_peer_witness :
    interpretResult routeOneHop (some 0) .FailInvalidOnionKey
      = .ok ⟨some 257, [], some FailureReason.Error, none⟩ :=
  C6_self_malformed_onion_blames_peer routeOneHop .FailInvalidOnionKey (by decide)
    (by decide)

/-- C7. For every route with `n ≥ 1` hops, `interpretResult` with a nil origin
returns, when `n = 1`, `nodeFailure = rt.Hops[0].PubKeyBytes`,
`finalFailureReason = Error` and empty `pairResults`; when `n ≥ 2`, a result
whose `pairResults` key set is exactly the pairs at positions `0, ..., n-1`
and their reverses (position 0 being `rt.SourcePubKey → rt.Hops[0]`), every
value 0, with `nodeFailure`, `finalFailureReason` and `policyFailure` unset.
The result is the same for any two failure arguments. -/
theorem C7_unknown_origin (rt : Route) (failure : FailureMessage)
    (hn : 1 ≤ rt.Hops.length) :
    (rt.Hops.length = 1 →
      interpretResult rt none failure
        = .ok ⟨some rt.Hops[0].PubKeyBytes, [], some FailureReason.Error, none⟩) ∧
    (2 ≤ rt.Hops.length →
      ∃ r, interpretResult rt none failure = .ok r ∧
        (∀ q, (PairMap.get? r.pairResults q).isSome ↔
          ∃ p pr, p < rt.Hops.length ∧ pairAt rt p = some pr ∧
            (q = pr ∨ q = pr.Reverse)) ∧
        (∀ q v, PairMap.get? r.pairResults q = some v → v = 0) ∧
        r.nodeFailure = none ∧ r.finalFailureReason = none ∧ r.policyFailure = none ∧
        pairAt rt 0 = some ⟨rt.SourcePubKey, rt.Hops[0].PubKeyBytes⟩ ∧
        (∀ (p : Nat) (hp1 : 1 ≤ p) (hpn : p < rt.Hops.length),
          pairAt rt p = some ⟨rt.Hops[p - 1].PubKeyBytes, rt.Hops[p].PubKeyBytes⟩)) ∧
    (∀ other : FailureMessage,
      interpretResult rt none other = interpretResult rt none failure) := by
  refine ⟨?_, ?_, ?_⟩
  · intro h1
    have h1i : (rt.Hops.length : Int) = 1 := by omega
    have hnode := failNode_ok rt 1 1 ⟨none, [], none, none⟩ [] rfl (le_refl 1) hn
    have hproc : processFail rt none failure ⟨none, [], none, none⟩ []
        = .ok (⟨some rt.Hops[0].PubKeyBytes, [], some FailureReason.Error, none⟩,
            [] ++ [Event.failNodeCall 1, Event.hopsIndex (1 - 1)]) := by
      simp only [processFail, processPaymentOutcomeUnknown, h1i, if_true, hnode, bind,
        Except.bind, pure, Except.pure]
    exact interpretResult_of_trace rt _ _ _ _ hproc
  · intro h2
    have h1i : ¬ (rt.Hops.length : Int) = 1 := by omega
    obtain ⟨r, t, hrun, hkeys, hvals, hnf, hf, hpol⟩ :=
      failPairRange_empty rt ((rt.Hops.length : Int) - 1) rt.Hops.length rfl (le_refl _)
    have hproc : processFail rt none failure ⟨none, [], none, none⟩ [] = .ok (r, t) := by
      simp only [processFail, processPaymentOutcomeUnknown, if_neg h1i]
      exact hrun
    refine ⟨r, interpretResult_of_trace rt _ _ _ _ hproc, hkeys, hvals, hnf, hf, hpol,
      pairAt_zero rt (by omega), ?_⟩
    intro p hp1 hpn
    exact pairAt_pos rt p hp1 hpn
  · intro other
    rfl

/-- C7 on the four-hop test route. -/
theorem C7_unknown_origin_witness :
    (routeFourHop.Hops.length = 1 →
      interpretResult routeFourHop none .Other
        = .ok ⟨some 257, [], some FailureReason.Error, none⟩) ∧
    (2 ≤ routeFourHop.Hops.length →
      ∃ r, interpretResult routeFourHop none .Other = .ok r ∧
        (∀ q, (PairMap.get? r.pairResults q).isSome ↔
          ∃ p pr, p < routeFourHop.Hops.length ∧ pairAt routeFourHop p = some pr ∧
            (q = pr ∨ q = pr.Reverse)) ∧
        (∀ q v, PairMap.get? r.pairResults q = some v → v = 0) ∧
        r.nodeFailure = none ∧ r.finalFailureReason = none ∧ r.policyFailure = none ∧
        pairAt routeFourHop 0 = some ⟨256, 257⟩ ∧
        (∀ (p : Nat) (hp1 : 1 ≤ p) (hpn : p < routeFourHop.Hops.length),
          pairAt routeFourHop p
            = some ⟨(routeFourHop.Hops.get ⟨p - 1, by omega⟩).PubKeyBytes,
                    (routeFourHop.Hops.get ⟨p, hpn⟩).PubKeyBytes⟩)) ∧
    (∀ other : FailureMessage,
      interpretResult routeFourHop none other = interpretResult routeFourHop none .Other) :=
  C7_unknown_origin routeFourHop .Other (by decide)

/-- C8. For every route, every `k` with `1 ≤ k < n` (so `n ≥ 2`) and every
failure of the policy-mismatch family, `interpretResult` with origin `k`
blames the incoming side: if `k = 1`, `nodeFailure = rt.Hops[0].PubKeyBytes`
and `pairResults` is empty; if `k ≥ 2`, `nodeFailure` is unset and the key set
of `pairResults` is exactly `(rt.Hops[k-2] → rt.Hops[k-1])` and its reverse,
both at 0.  In both cases `finalFailureReason` is unset. -/
theorem C8_policy_mismatch_blames_incoming (rt : Route) (k : Nat)
    (failure : FailureMessage) (h1 : 1 ≤ k) (hk : k < rt.Hops.length)
    (hf : failure = .FailAmountBelowMinimum ∨ failure = .FailFeeInsufficient ∨
      failure = .FailIncorrectCltvExpiry ∨ failure = .FailChannelDisabled) :
    ∃ r, interpretResult rt (some (k : Int)) failure = .ok r ∧
      r.finalFailureReason = none ∧
      (k = 1 → r.nodeFailure = some rt.Hops[0].PubKeyBytes ∧ r.pairResults = []) ∧
      (∀ h2 : 2 ≤ k, r.nodeFailure = none ∧
        ∀ q, PairMap.get? r.pairResults q
          = if q = ⟨rt.Hops[k - 2].PubKeyBytes, rt.Hops[k - 1].PubKeyBytes⟩ ∨
               q = ⟨rt.Hops[k - 1].PubKeyBytes, rt.Hops[k - 2].PubKeyBytes⟩
            then some 0 else none) := by
  have hrun := intermediate_policy rt k failure ⟨none, [], none, none⟩ [] h1 hk hf
  rw [← processFail_intermediate rt k failure _ _ h1 hk] at hrun
  by_cases hone : (k : Int) = 1
  · have hk1 : k = 1 := by omega
    subst hk1
    rw [reportIncoming, if_pos hone, failNode_ok rt _ 1 _ _ rfl (le_refl 1) (by omega)]
      at hrun
    refine ⟨_, interpretResult_of_trace rt _ failure _ _ hrun, rfl, fun _ => ⟨rfl, rfl⟩, ?_⟩
    intro h2
    omega
  · rw [reportIncoming, if_neg hone,
      failPair_pos rt _ (k - 1) _ _ (by omega) (by omega) (by omega)] at hrun
    refine ⟨_, interpretResult_of_trace rt _ failure _ _ hrun, rfl, ?_, ?_⟩
    · intro hk1
      omega
    · intro h2
      refine ⟨rfl, ?_⟩
      intro q
      exact PairMap.get?_pairBoth
        ⟨rt.Hops[k - 1 - 1].PubKeyBytes, rt.Hops[k - 1].PubKeyBytes⟩ q

/-- C8 on the four-hop test route with origin 2 and `FeeInsufficient`. -/
theorem C8_policy_mismatch_blames_incoming_witness :
    ∃ r, interpretResult routeFourHop (some ((2 : Nat) : Int)) .FailFeeInsufficient = .ok r ∧
      r.finalFailureReason = none ∧
      (2 = 1 → r.nodeFailure = some 257 ∧ r.pairResults = []) ∧
      (∀ _ : 2 ≤ 2, r.nodeFailure = none ∧
        ∀ q, PairMap.get? r.pairResults q
          = if q = ⟨257, 258⟩ ∨ q = ⟨258, 257⟩ then some 0 else none) :=
  C8_policy_mismatch_blames_incoming routeFourHop 2 .FailFeeInsufficient (by decide)
    (by decide) (by decide)

/-- C9. For every route, every `k` with `1 ≤ k < n` (so `n ≥ 2`) and every
failure among `InvalidOnionVersion`, `InvalidOnionHmac`, `InvalidOnionKey`,
`UnknownNextPeer` and `PermanentChannelFailure`, `interpretResult` with origin
`k` returns a result whose `pairResults` key set is exactly
`(rt.Hops[k-1] → rt.Hops[k])` and its reverse, both at 0, and whose
`nodeFailure`, `finalFailureReason` and `policyFailure` are unset. -/
theorem C9_outgoing_pair_blamed_both_ways (rt : Route) (k : Nat)
    (failure : FailureMessage) (h1 : 1 ≤ k) (hk : k < rt.Hops.length)
    (hf : failure = .FailInvalidOnionVersion ∨ failure = .FailInvalidOnionHmac ∨
      failure = .FailInvalidOnionKey ∨ failure = .FailUnknownNextPeer ∨
      failure = .FailPermanentChannelFailure) :
    ∃ r, interpretResult rt (some (k : Int)) failure = .ok r ∧
      (∀ q, PairMap.get? r.pairResults q
          = if q = ⟨rt.Hops[k - 1].PubKeyBytes, rt.Hops[k].PubKeyBytes⟩ ∨
               q = ⟨rt.Hops[k].PubKeyBytes, rt.Hops[k - 1].PubKeyBytes⟩
            then some 0 else none) ∧
      r.nodeFailure = none ∧ r.finalFailureReason = none ∧ r.policyFailure = none := by
  have hrun := intermediate_outgoing rt k failure ⟨none, [], none, none⟩ [] hf
  rw [← processFail_intermediate rt k failure _ _ h1 hk,
    failPair_pos rt _ k _ _ rfl h1 hk] at hrun
  refine ⟨_, interpretResult_of_trace rt _ failure _ _ hrun, ?_, rfl, rfl, rfl⟩
  intro q
  exact PairMap.get?_pairBoth ⟨rt.Hops[k - 1].PubKeyBytes, rt.Hops[k].PubKeyBytes⟩ q

/-- C9 on the four-hop test route with origin 2 and `UnknownNextPeer`. -/
theorem C9_outgoing_pair_blamed_both_ways_witness :
    ∃ r, interpretResult routeFourHop (some ((2 : Nat) : Int)) .FailUnknownNextPeer = .ok r ∧
      (∀ q, PairMap.get? r.pairResults q
          = if q = ⟨258, 259⟩ ∨ q = ⟨259, 258⟩ then some 0 else none) ∧
      r.nodeFailure = none ∧ r.finalFailureReason = none ∧ r.policyFailure = none :=
  C9_outgoing_pair_blamed_both_ways routeFourHop 2 .FailUnknownNextPeer (by decide)
    (by decide) (by decide)

/-- C10. For every route with `n ≥ 1` hops and failure `FinalIncorrectCltvExpiry`
or `FinalIncorrectHtlcAmount`, `interpretResult` with origin `n` returns: if
`n = 1`, `nodeFailure = rt.Hops[0].PubKeyBytes`, `finalFailureReason = Error`
and empty `pairResults`; if `n ≥ 2`, `nodeFailure` and `finalFailureReason`
unset and a `pairResults` whose key set is exactly
`(rt.Hops[n-2] → rt.Hops[n-1])` and its reverse, both at 0.  `policyFailure`
is unset in both cases. -/
theorem C10_final_incorrect_htlc (rt : Route) (failure : FailureMessage)
    (hn : 1 ≤ rt.Hops.length)
    (hf : failure = .FailFinalIncorrectCltvExpiry ∨
      failure = .FailFinalIncorrectHtlcAmount) :
    ∃ r, interpretResult rt (some (rt.Hops.length : Int)) failure = .ok r ∧
      r.policyFailure = none ∧
      (rt.Hops.length = 1 →
        r.nodeFailure = some rt.Hops[0].PubKeyBytes ∧
        r.finalFailureReason = some FailureReason.Error ∧ r.pairResults = []) ∧
      (∀ h2 : 2 ≤ rt.Hops.length,
        r.nodeFailure = none ∧ r.finalFailureReason = none ∧
        ∀ q, PairMap.get? r.pairResults q
          = if q = ⟨rt.Hops[rt.Hops.length - 2].PubKeyBytes,
                    rt.Hops[rt.Hops.length - 1].PubKeyBytes⟩ ∨
               q = ⟨rt.Hops[rt.Hops.length - 1].PubKeyBytes,
                    rt.Hops[rt.Hops.length - 2].PubKeyBytes⟩
            then some 0 else none) := by
  by_cases h1 : rt.Hops.length = 1
  · have h1i : (rt.Hops.length : Int) = 1 := by omega
    have hnode := failNode_ok rt (rt.Hops.length : Int) 1 ⟨none, [], none, none⟩ []
      h1i (le_refl 1) hn
    have hproc : processFail rt (some (rt.Hops.length : Int)) failure
        ⟨none, [], none, none⟩ []
          = .ok (⟨some rt.Hops[0].PubKeyBytes, [], some FailureReason.Error, none⟩,
              [] ++ [Event.failNodeCall (rt.Hops.length : Int),
                Event.hopsIndex ((rt.Hops.length : Int) - 1)]) := by
      rw [processFail_final rt failure _ _ hn]
      rcases hf with hf | hf <;> subst hf <;>
        simp only [processPaymentOutcomeFinal, if_pos h1i, hnode, bind, Except.bind, pure,
          Except.pure]
    refine ⟨_, interpretResult_of_trace rt _ failure _ _ hproc, rfl, fun _ => ⟨rfl, rfl, rfl⟩,
      ?_⟩
    intro h2
    omega
  · have h1i : ¬ (rt.Hops.length : Int) = 1 := by omega
    have hpair := failPair_pos rt ((rt.Hops.length : Int) - 1) (rt.Hops.length - 1)
      ⟨none, [], none, none⟩ [] (by omega) (by omega) (by omega)
    have hfin : processPaymentOutcomeFinal rt failure ⟨none, [], none, none⟩ []
        = failPair rt ((rt.Hops.length : Int) - 1) ⟨none, [], none, none⟩ [] := by
      rcases hf with hf | hf <;> subst hf <;>
        simp only [processPaymentOutcomeFinal, if_neg h1i]
    rw [← hfin, ← processFail_final rt failure _ _ hn] at hpair
    refine ⟨_, interpretResult_of_trace rt _ failure _ _ hpair, rfl, ?_, ?_⟩
    · intro h
      exact absurd h h1
    · intro h2
      refine ⟨rfl, rfl, ?_⟩
      intro q
      exact PairMap.get?_pairBoth
        ⟨rt.Hops[rt.Hops.length - 1 - 1].PubKeyBytes,
          rt.Hops[rt.Hops.length - 1].PubKeyBytes⟩ q

/-- C10 on the one-hop test route with `FinalIncorrectCltvExpiry`. -/
theorem C10_final_incorrect_htlc_witness :
    ∃ r, interpretResult routeOneHop (some (routeOneHop.Hops.length : Int))
        .FailFinalIncorrectCltvExpiry = .ok r ∧
      r.policyFailure = none ∧
      (routeOneHop.Hops.length = 1 →
        r.nodeFailure = some 257 ∧
        r.finalFailureReason = some FailureReason.Error ∧ r.pairResults = []) ∧
      (∀ h2 : 2 ≤ routeOneHop.Hops.length,
        r.nodeFailure = none ∧ r.finalFailureReason = none ∧
        ∀ q, PairMap.get? r.pairResults q
          = if q = ⟨(routeOneHop.Hops.get ⟨routeOneHop.Hops.length - 2, by omega⟩).PubKeyBytes,
                    (routeOneHop.Hops.get ⟨routeOneHop.Hops.length - 1, by omega⟩).PubKeyBytes⟩ ∨
               q = ⟨(routeOneHop.Hops.get ⟨routeOneHop.Hops.length - 1, by omega⟩).PubKeyBytes,
                    (routeOneHop.Hops.get ⟨routeOneHop.Hops.length - 2, by omega⟩).PubKeyBytes⟩
            then some 0 else none) :=
  C10_final_incorrect_htlc routeOneHop .FailFinalIncorrectCltvExpiry (by decide)
    (by decide)

/-! ## Final, intermediate and self origin: the remaining variants -/

theorem processFail_self (rt : Route) (failure : FailureMessage)
    (i : interpretedResult) (t : Trace) :
    processFail rt (some 0) failure i t = processPaymentOutcomeSelf rt failure i t := by
  simp only [processFail, if_true]

/-- C11. For every route with `n ≥ 1` hops and failure `IncorrectPaymentAmount`,
`IncorrectDetails` or `FinalExpiryTooSoon`, `interpretResult` with origin `n`
returns `finalFailureReason = IncorrectPaymentDetails` and no blame:
`nodeFailure` unset, `pairResults` empty, `policyFailure` unset. -/
theorem C11_final_incorrect_details_no_blame (rt : Route) (failure : FailureMessage)
    (hn : 1 ≤ rt.Hops.length)
    (hf : failure = .FailIncorrectPaymentAmount ∨ failure = .FailIncorrectDetails ∨
      failure = .FailFinalExpiryTooSoon) :
    interpretResult rt (some (rt.Hops.length : Int)) failure
      = .ok ⟨none, [], some FailureReason.IncorrectPaymentDetails, none⟩ := by
  have hproc : processFail rt (some (rt.Hops.length : Int)) failure
      ⟨none, [], none, none⟩ []
        = .ok (⟨none, [], some FailureReason.IncorrectPaymentDetails, none⟩, []) := by
    rw [processFail_final rt failure _ _ hn]
    rcases hf with hf | hf | hf <;> subst hf <;>
      simp only [processPaymentOutcomeFinal, pure, Except.pure]
  exact interpretResult_of_trace rt _ _ _ _ hproc

/-- C11 on the two-hop test route with `IncorrectDetails`. -/
theorem C11_final_incorrect_details_no_blame_witness :
    interpretResult routeTwoHop (some (routeTwoHop.Hops.length : Int)) .FailIncorrectDetails
      = .ok ⟨none, [], some FailureReason.IncorrectPaymentDetails, none⟩ :=
  C11_final_incorrect_details_no_blame routeTwoHop .FailIncorrectDetails (by decide)
    (by decide)

/-- C12. For every route with `n ≥ 1` hops and every failure variant other than
`FinalIncorrectCltvExpiry`, `FinalIncorrectHtlcAmount`, `IncorrectPaymentAmount`,
`IncorrectDetails` and `FinalExpiryTooSoon`, `interpretResult` with origin `n`
returns `nodeFailure = rt.Hops[n-1].PubKeyBytes`, `finalFailureReason = Error`,
empty `pairResults` and `policyFailure` unset. -/
theorem C12_final_other_blames_destination (rt : Route) (failure : FailureMessage)
    (hn : 1 ≤ rt.Hops.length)
    (hf : failure ≠ .FailFinalIncorrectCltvExpiry ∧
      failure ≠ .FailFinalIncorrectHtlcAmount ∧ failure ≠ .FailIncorrectPaymentAmount ∧
      failure ≠ .FailIncorrectDetails ∧ failure ≠ .FailFinalExpiryTooSoon) :
    interpretResult rt (some (rt.Hops.length : Int)) failure
      = .ok ⟨some rt.Hops[rt.Hops.length - 1].PubKeyBytes, [],
          some FailureReason.Error, none⟩ := by
  obtain ⟨hf1, hf2, hf3, hf4, hf5⟩ := hf
  have hnode := failNode_ok rt (rt.Hops.length : Int) rt.Hops.length
    ⟨none, [], none, none⟩ [] rfl hn (le_refl _)
  have hproc : processFail rt (some (rt.Hops.length : Int)) failure
      ⟨none, [], none, none⟩ []
        = .ok (⟨some rt.Hops[rt.Hops.length - 1].PubKeyBytes, [],
            some FailureReason.Error, none⟩,
            [] ++ [Event.failNodeCall (rt.Hops.length : Int),
              Event.hopsIndex ((rt.Hops.length : Int) - 1)]) := by
    rw [processFail_final rt failure _ _ hn]
    cases failure <;>
      first
        | exact absurd rfl hf1
        | exact absurd rfl hf2
        | exact absurd rfl hf3
        | exact absurd rfl hf4
        | exact absurd rfl hf5
        | simp only [processPaymentOutcomeFinal, hnode, bind, Except.bind, pure,
            Except.pure]
  exact interpretResult_of_trace rt _ _ _ _ hproc

/-- C12 on the two-hop test route with `InvalidOnionKey` reported by the final
hop. -/
theorem C12_final_other_blames_destination_witness :
    interpretResult routeTwoHop (some (routeTwoHop.Hops.length : Int)) .FailInvalidOnionKey
      = .ok ⟨some 258, [], some FailureReason.Error, none⟩ :=
  C12_final_other_blames_destination routeTwoHop .FailInvalidOnionKey (by decide)
    (by decide)

/-- C13. For every route, every `k` with `1 ≤ k < n` (so `n ≥ 2`) and every
failure variant outside the malformed-onion family, `UnknownNextPeer`,
`PermanentChannelFailure`, the policy-mismatch family, `TemporaryChannelFailure`
and `ExpiryTooSoon`, `interpretResult` with origin `k` returns
`nodeFailure = rt.Hops[k-1].PubKeyBytes` (the reporting node), empty
`pairResults`, and `finalFailureReason` and `policyFailure` unset. -/
theorem C13_intermediate_other_blames_reporting_node (rt : Route) (k : Nat)
    (failure : FailureMessage) (h1 : 1 ≤ k) (hk : k < rt.Hops.length)
    (hf : failure ≠ .FailInvalidOnionVersion ∧ failure ≠ .FailInvalidOnionHmac ∧
      failure ≠ .FailInvalidOnionKey ∧ failure ≠ .FailUnknownNextPeer ∧
      failure ≠ .FailPermanentChannelFailure ∧ failure ≠ .FailAmountBelowMinimum ∧
      failure ≠ .FailFeeInsufficient ∧ failure ≠ .FailIncorrectCltvExpiry ∧
      failure ≠ .FailChannelDisabled ∧ failure ≠ .FailTemporaryChannelFailure ∧
      failure ≠ .FailExpiryTooSoon) :
    interpretResult rt (some (k : Int)) failure
      = .ok ⟨some rt.Hops[k - 1].PubKeyBytes, [], none, none⟩ := by
  obtain ⟨g1, g2, g3, g4, g5, g6, g7, g8, g9, g10, g11⟩ := hf
  have hnode := failNode_ok rt (k : Int) k ⟨none, [], none, none⟩ [] rfl h1 (by omega)
  have hproc : processFail rt (some (k : Int)) failure ⟨none, [], none, none⟩ []
      = .ok (⟨some rt.Hops[k - 1].PubKeyBytes, [], none, none⟩,
          [] ++ [Event.failNodeCall (k : Int), Event.hopsIndex ((k : Int) - 1)]) := by
    rw [processFail_intermediate rt k failure _ _ h1 hk]
    cases failure <;>
      first
        | exact absurd rfl g1
        | exact absurd rfl g2
        | exact absurd rfl g3
        | exact absurd rfl g4
        | exact absurd rfl g5
        | exact absurd rfl g6
        | exact absurd rfl g7
        | exact absurd rfl g8
        | exact absurd rfl g9
        | exact absurd rfl g10
        | exact absurd rfl g11
        | simp only [processPaymentOutcomeIntermediate, hnode]
  exact interpretResult_of_trace rt _ _ _ _ hproc

/-- C13 on the four-hop test route: hop 2 reports the final-hop variant
`FinalIncorrectHtlcAmount`. -/
theorem C13_intermediate_other_blames_reporting_node_witness :
    interpretResult routeFourHop (some ((2 : Nat) : Int)) .FailFinalIncorrectHtlcAmount
      = .ok ⟨some 258, [], none, none⟩ :=
  C13_intermediate_other_blames_reporting_node routeFourHop 2
    .FailFinalIncorrectHtlcAmount (by decide) (by decide) (by decide)

/-- C14. For every route with `n ≥ 1` hops and every failure variant outside the
malformed-onion family, `interpretResult` with origin 0 returns the empty
result: `nodeFailure` unset, `pairResults` empty, `finalFailureReason` unset,
`policyFailure` unset. -/
theorem C14_self_other_empty_result (rt : Route) (failure : FailureMessage)
    (hn : 1 ≤ rt.Hops.length)
    (hf : failure ≠ .FailInvalidOnionVersion ∧ failure ≠ .FailInvalidOnionHmac ∧
      failure ≠ .FailInvalidOnionKey) :
    interpretResult rt (some 0) failure = .ok ⟨none, [], none, none⟩ := by
  obtain ⟨g1, g2, g3⟩ := hf
  have hlog := hopsAt_ok rt 0 0 [] rfl (by omega)
  have hproc : processFail rt (some 0) failure ⟨none, [], none, none⟩ []
      = .ok (⟨none, [], none, none⟩, [] ++ [Event.hopsIndex 0]) := by
    rw [processFail_self]
    cases failure <;>
      first
        | exact absurd rfl g1
        | exact absurd rfl g2
        | exact absurd rfl g3
        | simp only [processPaymentOutcomeSelf, hlog, bind, Except.bind, pure, Except.pure]
  exact interpretResult_of_trace rt _ _ _ _ hproc

/-- C14 on the two-hop test route with `TemporaryChannelFailure`. -/
theorem C14_self_other_empty_result_witness :
    interpretResult routeTwoHop (some 0) .FailTemporaryChannelFailure
      = .ok ⟨none, [], none, none⟩ :=
  C14_self_other_empty_result routeTwoHop .FailTemporaryChannelFailure (by decide)
    (by decide)

/-! ## The shape of every result -/

theorem DirectedNodePair.reverse_reverse (p : DirectedNodePair) : p.Reverse.Reverse = p := by
  cases p
  rfl

theorem symmetricZero_nil : SymmetricZero [] := by
  intro q v h
  simp [PairMap.get?] at h

theorem symmetricZero_pairBoth (pr : DirectedNodePair) :
    SymmetricZero (PairMap.set (PairMap.set [] pr 0) pr.Reverse 0) := by
  intro q v h
  rw [PairMap.get?_pairBoth] at h
  rw [PairMap.get?_pairBoth]
  by_cases hq : q = pr ∨ q = pr.Reverse
  · rw [if_pos hq] at h
    have hrev : q.Reverse = pr ∨ q.Reverse = pr.Reverse := by
      rcases hq with hq | hq
      · exact Or.inr (by rw [hq])
      · exact Or.inl (by rw [hq, DirectedNodePair.reverse_reverse])
    rw [if_pos hrev]
    exact ⟨(Option.some.inj h).symm, rfl⟩
  · rw [if_neg hq] at h
    cases h

theorem symmetricZero_of_keys (rt : Route) (k : Nat) (m : PairMap)
    (hkeys : ∀ q, (PairMap.get? m q).isSome ↔
      ∃ p pr, p < k ∧ pairAt rt p = some pr ∧ (q = pr ∨ q = pr.Reverse))
    (hvals : ∀ q v, PairMap.get? m q = some v → v = 0) : SymmetricZero m := by
  intro q v h
  refine ⟨hvals q v h, ?_⟩
  have hsome : (PairMap.get? m q).isSome := by rw [h]; rfl
  obtain ⟨p, pr, hp, hpr, hq⟩ := (hkeys q).mp hsome
  have hrev : (PairMap.get? m q.Reverse).isSome := by
    refine (hkeys q.Reverse).mpr ⟨p, pr, hp, hpr, ?_⟩
    rcases hq with hq | hq
    · exact Or.inr (by rw [hq])
    · exact Or.inl (by rw [hq, DirectedNodePair.reverse_reverse])
  obtain ⟨w, hw⟩ := Option.isSome_iff_exists.mp hrev
  rw [hw, hvals q.Reverse w hw]

theorem Shape.node (rt : Route) (origin : Option Int) (failure : FailureMessage)
    (p : Nat) (h1 : 1 ≤ p) (hp : p ≤ rt.Hops.length) (pol : Option DirectedNodePair) :
    Shape rt origin failure ⟨some rt.Hops[p - 1].PubKeyBytes, [], none, pol⟩ :=
  Or.inl ⟨p, h1, hp, rfl, rfl, Or.inl rfl⟩

theorem Shape.nodeError (rt : Route) (origin : Option Int) (failure : FailureMessage)
    (hn : 1 ≤ rt.Hops.length)
    (horigin : ∀ k, origin = some k → k = 0 ∨ k = (rt.Hops.length : Int)) :
    Shape rt origin failure
      ⟨some rt.Hops[rt.Hops.length - 1].PubKeyBytes, [], some FailureReason.Error, none⟩ :=
  Or.inl ⟨rt.Hops.length, hn, le_refl _, rfl, rfl, Or.inr ⟨rfl, rfl, horigin⟩⟩

theorem Shape.pairs (rt : Route) (origin : Option Int) (failure : FailureMessage)
    (m : PairMap) (pol : Option DirectedNodePair) (hm : SymmetricZero m) :
    Shape rt origin failure ⟨none, m, none, pol⟩ :=
  Or.inr (Or.inl ⟨rfl, rfl, Or.inl hm⟩)

theorem processPaymentOutcomeUnknown_shape (rt : Route) (failure : FailureMessage)
    (hn : 1 ≤ rt.Hops.length) :
    ∃ r t, processPaymentOutcomeUnknown rt ⟨none, [], none, none⟩ [] = .ok (r, t) ∧
      Shape rt none failure r := by
  by_cases h1 : rt.Hops.length = 1
  · have h1i : (rt.Hops.length : Int) = 1 := by omega
    have hnode := failNode_ok rt (rt.Hops.length : Int) rt.Hops.length
      ⟨none, [], none, none⟩ [] rfl hn (le_refl _)
    simp only [processPaymentOutcomeUnknown, if_pos h1i, hnode, bind, Except.bind, pure,
      Except.pure]
    exact ⟨_, _, rfl, Shape.nodeError rt none failure hn (fun k hk => by cases hk)⟩
  · have h1i : ¬ (rt.Hops.length : Int) = 1 := by omega
    obtain ⟨r, t, hrun, hkeys, hvals, hnf, hf, _⟩ :=
      failPairRange_empty rt ((rt.Hops.length : Int) - 1) rt.Hops.length rfl (le_refl _)
    refine ⟨r, t, ?_, Or.inr (Or.inl ⟨hnf, hf, Or.inl ?_⟩)⟩
    · simp only [processPaymentOutcomeUnknown, if_neg h1i]
      exact hrun
    · exact symmetricZero_of_keys rt rt.Hops.length r.pairResults hkeys hvals

theorem processPaymentOutcomeSelf_shape (rt : Route) (failure : FailureMessage)
    (hn : 1 ≤ rt.Hops.length) :
    ∃ r t, processPaymentOutcomeSelf rt failure ⟨none, [], none, none⟩ [] = .ok (r, t) ∧
      Shape rt (some 0) failure r := by
  have hnode := failNode_ok rt 1 1 ⟨none, [], none, none⟩ [] rfl (le_refl 1) hn
  have hlog := hopsAt_ok rt 0 0 [] rfl (by omega)
  have hmal : ∃ r t,
      ((failNode rt 1 ⟨none, [], none, none⟩ []).bind fun y =>
        if (rt.Hops.length : Int) = 1 then
          .ok ({ y.1 with finalFailureReason := some FailureReason.Error }, y.2)
        else .ok (y.1, y.2)) = .ok (r, t) ∧ Shape rt (some 0) failure r := by
    rw [hnode]
    by_cases h1 : (rt.Hops.length : Int) = 1
    · have h1n : rt.Hops.length = 1 := by omega
      refine ⟨_, _, by dsimp only [Except.bind]; rw [if_pos h1], ?_⟩
      exact Or.inl ⟨1, le_refl 1, hn, rfl, rfl,
        Or.inr ⟨rfl, h1n.symm, fun k hk => Or.inl (Option.some.inj hk).symm⟩⟩
    · refine ⟨_, _, by dsimp only [Except.bind]; rw [if_neg h1], ?_⟩
      exact Shape.node rt (some 0) failure 1 (le_refl 1) hn none
  have hother : ∃ r t,
      ((hopsAt rt 0 []).bind fun y =>
        (.ok (⟨none, [], none, none⟩, y.2) : Except Panic (interpretedResult × Trace)))
        = .ok (r, t) ∧ Shape rt (some 0) failure r := by
    rw [hlog]
    exact ⟨_, _, rfl, Shape.pairs rt (some 0) failure [] none symmetricZero_nil⟩
  cases failure <;> first
    | exact hmal
    | exact hother

theorem processPaymentOutcomeFinal_shape (rt : Route) (failure : FailureMessage)
    (hn : 1 ≤ rt.Hops.length) :
    ∃ r t, processPaymentOutcomeFinal rt failure ⟨none, [], none, none⟩ [] = .ok (r, t) ∧
      Shape rt (some (rt.Hops.length : Int)) failure r := by
  have hnode := failNode_ok rt (rt.Hops.length : Int) rt.Hops.length
    ⟨none, [], none, none⟩ [] rfl hn (le_refl _)
  have hshape := Shape.nodeError rt (some (rt.Hops.length : Int)) failure hn
    (fun k hk => Or.inr (Option.some.inj hk).symm)
  have hdef : ∃ r t,
      ((failNode rt (rt.Hops.length : Int) ⟨none, [], none, none⟩ []).bind fun y =>
        .ok ({ y.1 with finalFailureReason := some FailureReason.Error }, y.2))
        = .ok (r, t) ∧ Shape rt (some (rt.Hops.length : Int)) failure r := by
    rw [hnode]
    exact ⟨_, _, rfl, hshape⟩
  have hhtlc : ∃ r t,
      (if (rt.Hops.length : Int) = 1 then
        (failNode rt (rt.Hops.length : Int) ⟨none, [], none, none⟩ []).bind fun y =>
          .ok ({ y.1 with finalFailureReason := some FailureReason.Error }, y.2)
      else failPair rt ((rt.Hops.length : Int) - 1) ⟨none, [], none, none⟩ [])
        = .ok (r, t) ∧ Shape rt (some (rt.Hops.length : Int)) failure r := by
    by_cases h1 : (rt.Hops.length : Int) = 1
    · rw [if_pos h1]
      exact hdef
    · rw [if_neg h1, failPair_pos rt _ (rt.Hops.length - 1) _ _ (by omega) (by omega)
        (by omega)]
      exact ⟨_, _, rfl, Shape.pairs rt _ failure _ none
        (symmetricZero_pairBoth
          ⟨rt.Hops[rt.Hops.length - 1 - 1].PubKeyBytes,
            rt.Hops[rt.Hops.length - 1].PubKeyBytes⟩)⟩
  have hdet : ∃ r t,
      (.ok (⟨none, [], some FailureReason.IncorrectPaymentDetails, none⟩, []) :
        Except Panic (interpretedResult × Trace)) = .ok (r, t) ∧
      Shape rt (some (rt.Hops.length : Int)) failure r :=
    ⟨_, _, rfl, Or.inr (Or.inr ⟨rfl, rfl, rfl, rfl⟩)⟩
  cases failure <;> first
    | exact hdef
    | exact hhtlc
    | exact hdet

theorem processPaymentOutcomeIntermediate_shape (rt : Route) (k : Nat)
    (failure : FailureMessage) (h1 : 1 ≤ k) (hk : k < rt.Hops.length) :
    ∃ r t, processPaymentOutcomeIntermediate rt (k : Int) failure
        ⟨none, [], none, none⟩ [] = .ok (r, t) ∧
      Shape rt (some (k : Int)) failure r := by
  have hnodeOne : ∀ (i : interpretedResult) (t : Trace), (k : Int) = 1 →
      failNode rt (k : Int) i t
        = .ok (⟨some rt.Hops[k - 1].PubKeyBytes, i.pairResults, i.finalFailureReason,
            i.policyFailure⟩,
            t ++ [Event.failNodeCall (k : Int), Event.hopsIndex ((k : Int) - 1)]) :=
    fun i t _ => failNode_ok rt (k : Int) k i t rfl h1 (by omega)
  have hout : ∃ r t, reportOutgoing rt (k : Int) ⟨none, [], none, none⟩ [] = .ok (r, t) ∧
      Shape rt (some (k : Int)) failure r := by
    rw [reportOutgoing, failPair_pos rt _ k _ _ rfl h1 hk]
    exact ⟨_, _, rfl, Shape.pairs rt _ failure _ none
      (symmetricZero_pairBoth ⟨rt.Hops[k - 1].PubKeyBytes, rt.Hops[k].PubKeyBytes⟩)⟩
  have hbal : ∃ r t, reportOutgoingBalance rt (k : Int) ⟨none, [], none, none⟩ []
        = .ok (r, t) ∧
      Shape rt (some (k : Int)) .FailTemporaryChannelFailure r := by
    obtain ⟨u, hu, _⟩ := failPairBalance_ok rt (k : Int) k ⟨none, [], none, none⟩ [] rfl h1 hk
    rw [reportOutgoingBalance, hu]
    exact ⟨_, _, rfl, Or.inr (Or.inl ⟨rfl, rfl,
      Or.inr ⟨(k : Int), rfl, by omega, by omega, rfl⟩⟩)⟩
  have hnode : ∃ r t, failNode rt (k : Int) ⟨none, [], none, none⟩ [] = .ok (r, t) ∧
      Shape rt (some (k : Int)) failure r := by
    rw [failNode_ok rt (k : Int) k _ _ rfl h1 (by omega)]
    exact ⟨_, _, rfl, Shape.node rt _ failure k h1 (by omega) none⟩
  have hall : ∃ r t, reportAll rt (k : Int) ⟨none, [], none, none⟩ [] = .ok (r, t) ∧
      Shape rt (some (k : Int)) failure r := by
    by_cases hone : (k : Int) = 1
    · rw [reportAll, if_pos hone]
      exact hnode
    · obtain ⟨r, t, hrun, hkeys, hvals, hnf, hf, _⟩ :=
        failPairRange_empty rt ((k : Int) - 1) k rfl (by omega)
      rw [reportAll, if_neg hone]
      exact ⟨r, t, hrun, Or.inr (Or.inl ⟨hnf, hf,
        Or.inl (symmetricZero_of_keys rt k r.pairResults hkeys hvals)⟩)⟩
  have hpol : (failure = .FailAmountBelowMinimum ∨ failure = .FailFeeInsufficient ∨
        failure = .FailIncorrectCltvExpiry ∨ failure = .FailChannelDisabled) →
      ∃ r t, processPaymentOutcomeIntermediate rt (k : Int) failure
          ⟨none, [], none, none⟩ [] = .ok (r, t) ∧
        Shape rt (some (k : Int)) failure r := by
    intro hf
    rw [intermediate_policy rt k failure _ _ h1 hk hf]
    by_cases hone : (k : Int) = 1
    · rw [reportIncoming, if_pos hone, hnodeOne _ _ hone]
      exact ⟨_, _, rfl, Shape.node rt _ failure k h1 (by omega) _⟩
    · rw [reportIncoming, if_neg hone,
        failPair_pos rt _ (k - 1) _ _ (by omega) (by omega) (by omega)]
      exact ⟨_, _, rfl, Shape.pairs rt _ failure _ _
        (symmetricZero_pairBoth
          ⟨rt.Hops[k - 1 - 1].PubKeyBytes, rt.Hops[k - 1].PubKeyBytes⟩)⟩
  cases failure <;> first
    | exact hout
    | exact hbal
    | exact hall
    | exact hpol (by decide)
    | exact hnode

/-- Every call with `n ≥ 1` and an origin that is nil or in `[0, n]` returns a
result of one of the three shapes. -/
theorem interpretResult_shape (rt : Route) (origin : Option Int)
    (failure : FailureMessage) (hn : 1 ≤ rt.Hops.length)
    (horigin : ∀ k, origin = some k → 0 ≤ k ∧ k ≤ (rt.Hops.length : Int)) :
    ∃ r, interpretResult rt origin failure = .ok r ∧ Shape rt origin failure r := by
  have hproc : ∃ r t, processFail rt origin failure ⟨none, [], none, none⟩ [] = .ok (r, t) ∧
      Shape rt origin failure r := by
    cases origin with
    | none => exact processPaymentOutcomeUnknown_shape rt failure hn
    | some k =>
      obtain ⟨h0, hle⟩ := horigin k rfl
      by_cases hz : k = 0
      · subst hz
        rw [processFail_self]
        exact processPaymentOutcomeSelf_shape rt failure hn
      · by_cases hfin : k = (rt.Hops.length : Int)
        · subst hfin
          rw [processFail_final rt failure _ _ hn]
          exact processPaymentOutcomeFinal_shape rt failure hn
        · obtain ⟨m, rfl⟩ : ∃ m : Nat, k = (m : Int) := ⟨k.toNat, by omega⟩
          rw [processFail_intermediate rt m failure _ _ (by omega) (by omega)]
          exact processPaymentOutcomeIntermediate_shape rt m failure (by omega) (by omega)
  obtain ⟨r, t, hrun, hshape⟩ := hproc
  exact ⟨r, interpretResult_of_trace rt origin failure r t hrun, hshape⟩

/-- C15. Whole-pair blame is symmetric with amount 0: for every route with
`n ≥ 1` hops, every origin that is nil or in `[0, n]` and every failure, except
the combination of an intermediate origin (`1 ≤ k < n`) with
`TemporaryChannelFailure`, `interpretResult` returns a result in whose
`pairResults` every key `(A, B)` maps to 0 and `(B, A)` is a key mapping to 0
as well. -/
theorem C15_whole_pair_blame_symmetric (rt : Route) (origin : Option Int)
    (failure : FailureMessage) (hn : 1 ≤ rt.Hops.length)
    (horigin : ∀ k, origin = some k → 0 ≤ k ∧ k ≤ (rt.Hops.length : Int))
    (hexcept : ¬ ∃ k : Int, origin = some k ∧ 1 ≤ k ∧ k < (rt.Hops.length : Int) ∧
      failure = .FailTemporaryChannelFailure) :
    ∃ r, interpretResult rt origin failure = .ok r ∧
      ∀ (a b : Vertex) (v : MilliSatoshi), PairMap.get? r.pairResults ⟨a, b⟩ = some v →
        v = 0 ∧ PairMap.get? r.pairResults ⟨b, a⟩ = some 0 := by
  obtain ⟨r, hr, hshape⟩ := interpretResult_shape rt origin failure hn horigin
  refine ⟨r, hr, ?_⟩
  have hsym : SymmetricZero r.pairResults := by
    rcases hshape with ⟨_, _, _, _, hempty, _⟩ | ⟨_, _, hs | hbal⟩ | ⟨_, hempty, _⟩
    · rw [hempty]
      exact symmetricZero_nil
    · exact hs
    · exact absurd hbal hexcept
    · rw [hempty]
      exact symmetricZero_nil
  intro a b v hv
  exact hsym ⟨a, b⟩ v hv

/-- C15 on the four-hop test route with origin 3 and `ExpiryTooSoon`. -/
theorem C15_whole_pair_blame_symmetric_witness :
    ∃ r, interpretResult routeFourHop (some 3) .FailExpiryTooSoon = .ok r ∧
      ∀ (a b : Vertex) (v : MilliSatoshi), PairMap.get? r.pairResults ⟨a, b⟩ = some v →
        v = 0 ∧ PairMap.get? r.pairResults ⟨b, a⟩ = some 0 :=
  C15_whole_pair_blame_symmetric routeFourHop (some 3) .FailExpiryTooSoon (by decide)
    (by
      intro k hk
      cases hk
      decide)
    (by
      rintro ⟨k, _, _, _, hf⟩
      cases hf)

/-- C19. Node blame and pair blame are mutually exclusive: for every route with
`n ≥ 1` hops, every origin that is nil or in `[0, n]` and every failure,
`interpretResult` returns a result whose `pairResults` is empty whenever its
`nodeFailure` is set. -/
theorem C19_node_blame_excludes_pair_blame (rt : Route) (origin : Option Int)
    (failure : FailureMessage) (hn : 1 ≤ rt.Hops.length)
    (horigin : ∀ k, origin = some k → 0 ≤ k ∧ k ≤ (rt.Hops.length : Int)) :
    ∃ r, interpretResult rt origin failure = .ok r ∧
      ∀ v, r.nodeFailure = some v → r.pairResults = [] := by
  obtain ⟨r, hr, hshape⟩ := interpretResult_shape rt origin failure hn horigin
  refine ⟨r, hr, ?_⟩
  intro v hv
  rcases hshape with ⟨_, _, _, _, hempty, _⟩ | ⟨hnone, _⟩ | ⟨hnone, _⟩
  · exact hempty
  · rw [hnone] at hv
    cases hv
  · rw [hnone] at hv
    cases hv

/-- C19 on the two-hop test route with origin 1 and `FeeInsufficient`, where
`nodeFailure` is set. -/
theorem C19_node_blame_excludes_pair_blame_witness :
    ∃ r, interpretResult routeTwoHop (some 1) .FailFeeInsufficient = .ok r ∧
      ∀ v, r.nodeFailure = some v → r.pairResults = [] :=
  C19_node_blame_excludes_pair_blame routeTwoHop (some 1) .FailFeeInsufficient
    (by decide)
    (by
      intro k hk
      cases hk
      decide)

/-- C20. For every route with `n ≥ 1` hops, every origin that is nil or in
`[0, n]` and every failure, `interpretResult` returns a result such that: if
`finalFailureReason = Error` then `nodeFailure = rt.Hops[n-1].PubKeyBytes`; if
`finalFailureReason = IncorrectPaymentDetails` then `nodeFailure` is unset and
`pairResults` is empty; and `finalFailureReason` is unset when the origin is an
intermediate hop (`1 ≤ k < n`). -/
theorem C20_terminal_error_blames_destination (rt : Route) (origin : Option Int)
    (failure : FailureMessage) (hn : 1 ≤ rt.Hops.length)
    (horigin : ∀ k, origin = some k → 0 ≤ k ∧ k ≤ (rt.Hops.length : Int)) :
    ∃ r, interpretResult rt origin failure = .ok r ∧
      (r.finalFailureReason = some FailureReason.Error →
        r.nodeFailure = some rt.Hops[rt.Hops.length - 1].PubKeyBytes) ∧
      (r.finalFailureReason = some FailureReason.IncorrectPaymentDetails →
        r.nodeFailure = none ∧ r.pairResults = []) ∧
      (∀ k : Int, origin = some k → 1 ≤ k → k < (rt.Hops.length : Int) →
        r.finalFailureReason = none) := by
  obtain ⟨r, hr, hshape⟩ := interpretResult_shape rt origin failure hn horigin
  refine ⟨r, hr, ?_, ?_, ?_⟩
  · intro herr
    rcases hshape with ⟨p, h1, hp, hnode, _, hfr | ⟨_, hpn, _⟩⟩ | ⟨_, hfr, _⟩ |
        ⟨_, _, hfr, _⟩
    · rw [hfr] at herr
      cases herr
    · subst hpn
      exact hnode
    · rw [hfr] at herr
      cases herr
    · rw [hfr] at herr
      cases herr
  · intro hdet
    rcases hshape with ⟨_, _, _, _, _, hfr | ⟨hfr, _⟩⟩ | ⟨_, hfr, _⟩ |
        ⟨hnone, hempty, _⟩
    · rw [hfr] at hdet
      cases hdet
    · rw [hfr] at hdet
      cases hdet
    · rw [hfr] at hdet
      cases hdet
    · exact ⟨hnone, hempty⟩
  · intro k hk h1 hlt
    rcases hshape with ⟨_, _, _, _, _, hfr | ⟨_, _, hends⟩⟩ | ⟨_, hfr, _⟩ |
        ⟨_, _, _, hfin⟩
    · exact hfr
    · rcases hends k hk with h0 | hlast <;> omega
    · exact hfr
    · rw [hk] at hfin
      have hkn : k = (rt.Hops.length : Int) := Option.some.inj hfin
      omega

/-- C20 on the one-hop test route with origin 0 and `InvalidOnionKey`, where
`finalFailureReason = Error`. -/
theorem C20_terminal_error_blames_destination_witness :
    ∃ r, interpretResult routeOneHop (some 0) .FailInvalidOnionKey = .ok r ∧
      (r.finalFailureReason = some FailureReason.Error →
        r.nodeFailure
          = some (routeOneHop.Hops.get ⟨routeOneHop.Hops.length - 1, by decide⟩).PubKeyBytes) ∧
      (r.finalFailureReason = some FailureReason.IncorrectPaymentDetails →
        r.nodeFailure = none ∧ r.pairResults = []) ∧
      (∀ k : Int, (some 0 : Option Int) = some k → 1 ≤ k →
        k < (routeOneHop.Hops.length : Int) → r.finalFailureReason = none) :=
  C20_terminal_error_blames_destination routeOneHop (some 0) .FailInvalidOnionKey
    (by decide)
    (by
      intro k hk
      cases hk
      decide)

/-! ## Balance blame, out-of-range origins and `failNode` -/

/-- C16 as stated fails: on a two-hop route whose first hop forwards 0, origin 1
with `TemporaryChannelFailure` inserts the single entry with value 0, which is
not strictly positive. -/
theorem C16_balance_amount_positive_counterexample :
    interpretResult routeZeroAmount (some 1) .FailTemporaryChannelFailure
        = .ok ⟨none, [(⟨257, 258⟩, 0)], none, none⟩ ∧
      ¬ ∀ q v, PairMap.get? [((⟨257, 258⟩ : DirectedNodePair), (0 : MilliSatoshi))] q = some v →
        0 < v := by
  refine ⟨rfl, ?_⟩
  intro h
  exact absurd (h ⟨257, 258⟩ 0 rfl) (by decide)

/-- C16, amended. For every route and every `k` with `1 ≤ k < n` (so `n ≥ 2`),
the single `pairResults` entry produced by `interpretResult` for origin `k` and
`TemporaryChannelFailure` carries the value `rt.Hops[k-1].AmtToForward`; it is
strictly greater than 0 whenever that forwarded amount is. -/
theorem C16_balance_amount_is_forwarded_amount (rt : Route) (k : Nat)
    (h1 : 1 ≤ k) (hk : k < rt.Hops.length)
    (hpos : 0 < rt.Hops[k - 1].AmtToForward) :
    ∃ r, interpretResult rt (some (k : Int)) .FailTemporaryChannelFailure = .ok r ∧
      r.pairResults
        = [(⟨rt.Hops[k - 1].PubKeyBytes, rt.Hops[k].PubKeyBytes⟩,
            rt.Hops[k - 1].AmtToForward)] ∧
      ∀ q v, PairMap.get? r.pairResults q = some v → 0 < v := by
  have hrun := (processFail_intermediate rt k .FailTemporaryChannelFailure
      ⟨none, [], none, none⟩ [] h1 hk).trans
    (intermediate_balance rt k ⟨none, [], none, none⟩ [] h1 hk)
  refine ⟨_, interpretResult_of_trace rt _ _ _ _ hrun, rfl, ?_⟩
  intro q v hv
  simp only [PairMap.set, PairMap.get?] at hv
  by_cases hq : (⟨rt.Hops[k - 1].PubKeyBytes, rt.Hops[k].PubKeyBytes⟩ : DirectedNodePair) = q
  · rw [if_pos hq] at hv
    rw [← Option.some.inj hv]
    exact hpos
  · rw [if_neg hq] at hv
    cases hv

/-- C16, amended, on the two-hop test route with origin 1 (forwarded amount
99). -/
theorem C16_balance_amount_is_forwarded_amount_witness :
    ∃ r, interpretResult routeTwoHop (some ((1 : Nat) : Int)) .FailTemporaryChannelFailure
        = .ok r ∧
      r.pairResults = [(⟨257, 258⟩, 99)] ∧
      ∀ q v, PairMap.get? r.pairResults q = some v → 0 < v :=
  C16_balance_amount_is_forwarded_amount routeTwoHop 1 (by decide) (by decide) (by decide)

theorem hopsAt_panics (rt : Route) (idx : Int) (t : Trace)
    (hidx : idx < 0 ∨ (rt.Hops.length : Int) ≤ idx) :
    hopsAt rt idx t = .error (Panic.indexOutOfRange idx rt.Hops.length) := by
  by_cases h0 : 0 ≤ idx
  · have hlen : rt.Hops.length ≤ idx.toNat := by omega
    simp only [hopsAt, if_pos h0, List.getElem?_eq_none hlen]
  · simp only [hopsAt, if_neg h0]

theorem getPair_panics (rt : Route) (idx : Int) (t : Trace)
    (hidx : idx < 0 ∨ (rt.Hops.length : Int) ≤ idx) :
    getPair rt idx t = .error (Panic.indexOutOfRange idx rt.Hops.length) := by
  simp only [getPair, hopsAt_panics rt idx t hidx, bind, Except.bind]

theorem failPair_panics (rt : Route) (idx : Int) (i : interpretedResult) (t : Trace)
    (hidx : idx < 0 ∨ (rt.Hops.length : Int) ≤ idx) :
    failPair rt idx i t = .error (Panic.indexOutOfRange idx rt.Hops.length) := by
  simp only [failPair, getPair_panics rt idx t hidx, bind, Except.bind]

theorem failPairBalance_panics (rt : Route) (idx : Int) (i : interpretedResult)
    (t : Trace) (hidx : idx < 0 ∨ (rt.Hops.length : Int) ≤ idx) :
    failPairBalance rt idx i t = .error (Panic.indexOutOfRange idx rt.Hops.length) := by
  simp only [failPairBalance, getPair_panics rt idx t hidx, bind, Except.bind]

theorem failNode_panics (rt : Route) (idx : Int) (i : interpretedResult) (t : Trace)
    (hidx : idx < 1 ∨ (rt.Hops.length : Int) < idx) :
    failNode rt idx i t = .error (Panic.indexOutOfRange (idx - 1) rt.Hops.length) := by
  have h : idx - 1 < 0 ∨ (rt.Hops.length : Int) ≤ idx - 1 := by omega
  simp only [failNode, hopsAt_panics rt (idx - 1) _ h, bind, Except.bind]

/-- The loop of `failPairRange` started inside the route with enough
iterations to reach position `len(rt.Hops)` panics there. -/
theorem failPairRangeLoop_panics (rt : Route) (c : Nat) :
    ∀ (a : Nat) (idx : Int) (i : interpretedResult) (t : Trace),
      idx = (a : Int) → a ≤ rt.Hops.length → rt.Hops.length < a + c →
      failPairRangeLoop rt c idx i t
        = .error (Panic.indexOutOfRange (rt.Hops.length : Int) rt.Hops.length) := by
  induction c with
  | zero =>
    intro a idx i t _ h1 h2
    omega
  | succ c ih =>
    intro a idx i t hidx hle hlt
    by_cases hlast : a = rt.Hops.length
    · have heq : idx = (rt.Hops.length : Int) := by omega
      subst heq
      simp only [failPairRangeLoop,
        failPair_panics rt (rt.Hops.length : Int) i t (Or.inr (le_refl _)), bind,
        Except.bind]
    · obtain ⟨pr, u, _, hfp, _⟩ := failPair_ok rt idx a i t hidx (by omega)
      simp only [failPairRangeLoop, hfp, bind, Except.bind]
      exact ih (a + 1) (idx + 1) _ _ (by omega) (by omega) (by omega)

theorem interpretResult_of_panic (rt : Route) (origin : Option Int)
    (failure : FailureMessage) (e : Panic)
    (h : processFail rt origin failure ⟨none, [], none, none⟩ [] = .error e) :
    interpretResult rt origin failure = .error e := by
  simp only [interpretResult, interpretResultTrace, h]

/-- An origin above `len(rt.Hops)`, or a negative origin with a failure other
than `ExpiryTooSoon`, makes `processPaymentOutcomeIntermediate` panic. -/
theorem processPaymentOutcomeIntermediate_panics (rt : Route) (k : Int)
    (failure : FailureMessage) (i : interpretedResult) (t : Trace)
    (hk : (rt.Hops.length : Int) < k ∨ (k < 0 ∧ failure ≠ .FailExpiryTooSoon)) :
    ∃ idx : Int, (idx < 0 ∨ (rt.Hops.length : Int) ≤ idx) ∧
      processPaymentOutcomeIntermediate rt k failure i t
        = .error (Panic.indexOutOfRange idx rt.Hops.length) := by
  have hkout : k < 0 ∨ (rt.Hops.length : Int) ≤ k := by omega
  have hk1out : k - 1 < 0 ∨ (rt.Hops.length : Int) ≤ k - 1 := by omega
  have hout : ∃ idx : Int, (idx < 0 ∨ (rt.Hops.length : Int) ≤ idx) ∧
      reportOutgoing rt k i t = .error (Panic.indexOutOfRange idx rt.Hops.length) :=
    ⟨k, hkout, failPair_panics rt k i t hkout⟩
  have hbal : ∃ idx : Int, (idx < 0 ∨ (rt.Hops.length : Int) ≤ idx) ∧
      reportOutgoingBalance rt k i t = .error (Panic.indexOutOfRange idx rt.Hops.length) :=
    ⟨k, hkout, failPairBalance_panics rt k i t hkout⟩
  have hnode : ∃ idx : Int, (idx < 0 ∨ (rt.Hops.length : Int) ≤ idx) ∧
      failNode rt k i t = .error (Panic.indexOutOfRange idx rt.Hops.length) :=
    ⟨k - 1, hk1out, failNode_panics rt k i t (by omega)⟩
  have hpol : ∃ idx : Int, (idx < 0 ∨ (rt.Hops.length : Int) ≤ idx) ∧
      ((hopsAt rt (k - 1) t).bind fun a =>
        (hopsAt rt k a.2).bind fun b =>
          reportIncoming rt k
            ⟨i.nodeFailure, i.pairResults, i.finalFailureReason,
              some ⟨a.1.PubKeyBytes, b.1.PubKeyBytes⟩⟩ b.2)
        = .error (Panic.indexOutOfRange idx rt.Hops.length) := by
    refine ⟨k - 1, hk1out, ?_⟩
    rw [hopsAt_panics rt (k - 1) t hk1out]
    rfl
  have hall : (rt.Hops.length : Int) < k →
      ∃ idx : Int, (idx < 0 ∨ (rt.Hops.length : Int) ≤ idx) ∧
        reportAll rt k i t = .error (Panic.indexOutOfRange idx rt.Hops.length) := by
    intro hgt
    by_cases hone : k = 1
    · rw [reportAll, if_pos hone]
      exact hnode
    · refine ⟨(rt.Hops.length : Int), Or.inr (le_refl _), ?_⟩
      rw [reportAll, if_neg hone, failPairRange]
      exact failPairRangeLoop_panics rt _ 0 0 i t rfl (Nat.zero_le _) (by omega)
  cases failure <;> first
    | exact hout
    | exact hbal
    | exact hnode
    | exact hpol
    | exact hall (by
        rcases hk with hk | ⟨_, hk⟩
        · exact hk
        · exact absurd rfl hk)

/-- C17 as stated fails: on the two-hop test route the negative origin `-1`
with `ExpiryTooSoon` does not panic; the range loop runs zero times and the
empty result is returned. -/
theorem C17_out_of_range_origin_counterexample :
    interpretResult routeTwoHop (some (-1)) .FailExpiryTooSoon
      = .ok ⟨none, [], none, none⟩ := rfl

/-- C17, amended. For every route, every failure variant and every origin index
`k` with `k > n`, and for every `k < 0` with a failure variant other than
`ExpiryTooSoon`, `interpretResult` does not return a result: it panics on an
index of `rt.Hops` outside `[0, n-1]`. -/
theorem C17_out_of_range_origin_panics (rt : Route) (k : Int)
    (failure : FailureMessage)
    (hk : (rt.Hops.length : Int) < k ∨ (k < 0 ∧ failure ≠ .FailExpiryTooSoon)) :
    ∃ idx : Int, (idx < 0 ∨ (rt.Hops.length : Int) ≤ idx) ∧
      interpretResult rt (some k) failure
        = .error (Panic.indexOutOfRange idx rt.Hops.length) := by
  have hz : ¬ k = 0 := by omega
  have hfin : ¬ k = (rt.Hops.length : Int) := by omega
  obtain ⟨idx, hidx, hrun⟩ :=
    processPaymentOutcomeIntermediate_panics rt k failure ⟨none, [], none, none⟩ [] hk
  refine ⟨idx, hidx, interpretResult_of_panic rt _ failure _ ?_⟩
  simp only [processFail, if_neg hz, if_neg hfin]
  exact hrun

/-- C17, amended, on the two-hop test route with origin 3 and
`ExpiryTooSoon`. -/
theorem C17_out_of_range_origin_panics_witness :
    ∃ idx : Int, (idx < 0 ∨ (routeTwoHop.Hops.length : Int) ≤ idx) ∧
      interpretResult routeTwoHop (some 3) .FailExpiryTooSoon
        = .error (Panic.indexOutOfRange idx routeTwoHop.Hops.length) :=
  C17_out_of_range_origin_panics routeTwoHop 3 .FailExpiryTooSoon (Or.inl (by decide))

/-- C18. Blaming the local node is rejected: for every route, `failNode(rt, 0)`
panics (on `rt.Hops[-1]`) instead of setting `nodeFailure`, while for every
`idx` with `1 ≤ idx ≤ n` it returns with `nodeFailure` set to
`rt.Hops[idx-1].PubKeyBytes` and with `pairResults`, `finalFailureReason` and
`policyFailure` unchanged. -/
theorem C18_failNode_rejects_self (rt : Route) (i : interpretedResult) (t : Trace) :
    failNode rt 0 i t = .error (Panic.indexOutOfRange (-1) rt.Hops.length) ∧
    ∀ (idx : Nat) (h1 : 1 ≤ idx) (hn : idx ≤ rt.Hops.length),
      ∃ u, failNode rt (idx : Int) i t
        = .ok (⟨some rt.Hops[idx - 1].PubKeyBytes, i.pairResults, i.finalFailureReason,
            i.policyFailure⟩, u) := by
  refine ⟨?_, ?_⟩
  · exact failNode_panics rt 0 i t (Or.inl (by decide))
  · intro idx h1 hn
    exact ⟨_, failNode_ok rt (idx : Int) idx i t rfl h1 hn⟩

/-- C18 on the two-hop test route, starting from a result that already holds a
pair entry, a terminal reason and a policy pair. -/
theorem C18_failNode_rejects_self_witness :
    failNode routeTwoHop 0 ⟨none, [(⟨256, 257⟩, 5)], some FailureReason.Error, some ⟨257, 258⟩⟩ []
        = .error (Panic.indexOutOfRange (-1) routeTwoHop.Hops.length) ∧
    ∀ (idx : Nat) (h1 : 1 ≤ idx) (hn : idx ≤ routeTwoHop.Hops.length),
      ∃ u, failNode routeTwoHop (idx : Int)
          ⟨none, [(⟨256, 257⟩, 5)], some FailureReason.Error, some ⟨257, 258⟩⟩ []
        = .ok (⟨some (routeTwoHop.Hops.get ⟨idx - 1, by omega⟩).PubKeyBytes,
            [(⟨256, 257⟩, 5)], some FailureReason.Error, some ⟨257, 258⟩⟩, u) :=
  C18_failNode_rejects_self routeTwoHop
    ⟨none, [(⟨256, 257⟩, 5)], some FailureReason.Error, some ⟨257, 258⟩⟩ []

end Routing
